import Mathlib

/-!
Verification of the GameNet two-channel transport protocol
(`gameNetPacket.py`, `gameNetAPI.py`) against its specification.

Bytes are modelled as `List Nat` (each entry `< 256` on real wires),
Python `int` fields as `Nat`, wall-clock times (Python floats holding
seconds) as `ℚ` (the float arithmetic the claims depend on is exact),
and fallible Python code (raising) as `Option`-valued functions.
-/

/-- `MAX_SEQ_NUM = 2 ** 16` from gameNetAPI.py. -/
def MAX_SEQ_NUM : Nat := 2 ^ 16

/-- `SR_WINDOW_SIZE = 5` from gameNetAPI.py. -/
def SR_WINDOW_SIZE : Nat := 5

/-- `HALF_SEQ_SPACE = MAX_SEQ_NUM // 2` from gameNetAPI.py. -/
def HALF_SEQ_SPACE : Nat := MAX_SEQ_NUM / 2

/-- `RETRANSMISSION_THRESHOLD = 0.2` (seconds) from gameNetAPI.py
(the spec calls it `RETRANSMISSION_STOP_THRESHOLD`). -/
def RETRANSMISSION_THRESHOLD : ℚ := 2 / 10

/-- `TIMEOUT = 0.05` (seconds) from gameNetAPI.py. -/
def TIMEOUT : ℚ := 5 / 100

/-- `HEADER_SIZE = 1 + 2 + 4 + 2 + 1 = 10` from gameNetPacket.py. -/
def HEADER_SIZE : Nat := 1 + 2 + 4 + 2 + 1

/-- The packet structure of `gameNetPacket.GameNetPacket`: all header
fields are Python ints (here `Nat`), the payload is a byte string. -/
structure GameNetPacket where
  channel_type : Nat
  seq_num : Nat
  time_stamp : Nat
  ack_num : Nat
  ack_flag : Nat
  payload : List Nat
deriving DecidableEq

/-- Python `n.to_bytes(2, byteorder='big')`: two big-endian bytes.
Defined only for `n < 256^2`; Python raises `OverflowError` otherwise
(the caller `to_bytes` returns `none` in that case). -/
def natToBytes2 (n : Nat) : List Nat := [n / 256 % 256, n % 256]

/-- Python `n.to_bytes(4, byteorder='big')`: four big-endian bytes. -/
def natToBytes4 (n : Nat) : List Nat :=
  [n / 16777216 % 256, n / 65536 % 256, n / 256 % 256, n % 256]

/-- Python `int.from_bytes(l, byteorder='big')`. -/
def bytesToNat (l : List Nat) : Nat := l.foldl (fun a b => a * 256 + b) 0

/-- `GameNetPacket.to_bytes`: builds the 10-byte header followed by the
payload.  `bytearray` item assignment and `int.to_bytes` raise
(`ValueError` / `OverflowError`) when a field exceeds its wire width,
so encoding is `Option`-valued: it succeeds exactly when every field
fits its width, and never truncates. -/
def GameNetPacket.to_bytes (p : GameNetPacket) : Option (List Nat) :=
  if p.channel_type < 256 ∧ p.seq_num < 65536 ∧ p.time_stamp < 4294967296 ∧
      p.ack_num < 65536 ∧ p.ack_flag < 256 then
    some ([p.channel_type] ++ natToBytes2 p.seq_num ++ natToBytes4 p.time_stamp ++
      natToBytes2 p.ack_num ++ [p.ack_flag] ++ p.payload)
  else none

/-- `GameNetPacket.from_bytes`: raises `ValueError` (here `none`) iff
the input is shorter than `HEADER_SIZE`; otherwise decodes the header
fields at their fixed offsets and takes the rest as payload. -/
def GameNetPacket.from_bytes (data : List Nat) : Option GameNetPacket :=
  if data.length < HEADER_SIZE then none
  else some {
    channel_type := data.getD 0 0
    seq_num := bytesToNat ((data.drop 1).take 2)
    time_stamp := bytesToNat ((data.drop 3).take 4)
    ack_num := bytesToNat ((data.drop 7).take 2)
    ack_flag := data.getD 9 0
    payload := data.drop HEADER_SIZE }

theorem bytesToNat_natToBytes2 (n : Nat) (h : n < 65536) :
    bytesToNat (natToBytes2 n) = n := by
  simp [bytesToNat, natToBytes2]
  omega

theorem bytesToNat_natToBytes4 (n : Nat) (h : n < 4294967296) :
    bytesToNat (natToBytes4 n) = n := by
  simp [bytesToNat, natToBytes4]
  omega

set_option maxRecDepth 8000

/-- C1: for every packet whose fields fit their wire widths, `to_bytes`
succeeds, `from_bytes` of the result returns the packet field-wise, and
the encoding is at least `HEADER_SIZE` bytes long. -/
theorem encode_decode_roundtrip (p : GameNetPacket)
    (h1 : p.channel_type < 2 ^ 8) (h2 : p.seq_num < 2 ^ 16)
    (h3 : p.time_stamp < 2 ^ 32) (h4 : p.ack_num < 2 ^ 16)
    (h5 : p.ack_flag < 2 ^ 8) :
    ∃ bs, p.to_bytes = some bs ∧ GameNetPacket.from_bytes bs = some p ∧
      HEADER_SIZE ≤ bs.length := by
  obtain ⟨c, s, t, a, f, pl⟩ := p
  norm_num at h1 h2 h3 h4 h5
  refine ⟨[c] ++ natToBytes2 s ++ natToBytes4 t ++ natToBytes2 a ++ [f] ++ pl,
    ?_, ?_, ?_⟩
  · simp [GameNetPacket.to_bytes, h1, h2, h3, h4, h5]
  · simp only [natToBytes2, natToBytes4, List.cons_append, List.nil_append,
      List.singleton_append]
    rw [GameNetPacket.from_bytes, if_neg (by simp [HEADER_SIZE])]
    simp only [List.getD_cons_zero, List.getD_cons_succ, List.drop_succ_cons,
      List.drop_zero, List.take_succ_cons, List.take_zero, HEADER_SIZE]
    norm_num [bytesToNat]
    refine ⟨by omega, by omega, by omega⟩
  · simp [natToBytes2, natToBytes4, HEADER_SIZE]

/-- Witness for `encode_decode_roundtrip` at a concrete packet. -/
theorem encode_decode_roundtrip_witness :
    ∃ bs, GameNetPacket.to_bytes ⟨1, 300, 70000, 2, 0, [7, 8]⟩ = some bs ∧
      GameNetPacket.from_bytes bs = some ⟨1, 300, 70000, 2, 0, [7, 8]⟩ ∧
      HEADER_SIZE ≤ bs.length :=
  encode_decode_roundtrip ⟨1, 300, 70000, 2, 0, [7, 8]⟩
    (by norm_num) (by norm_num) (by norm_num) (by norm_num) (by norm_num)

/-- C8: the code does NOT truncate an oversized `time_stamp`.
`to_bytes` on a packet carrying a current epoch-milliseconds timestamp
(`time_stamp = 1760227200000 ≥ 2^32`, as `_send_packet_internal` puts
in every outgoing packet) fails: Python `int.to_bytes(4, 'big')`
raises `OverflowError` instead of storing the value mod `2^32`. -/
theorem to_bytes_epoch_millis_fails :
    GameNetPacket.to_bytes ⟨1, 1, 1760227200000, 0, 0, []⟩ = none ∧
      2 ^ 32 ≤ 1760227200000 := by
  constructor
  · rw [GameNetPacket.to_bytes, if_neg]
    norm_num
  · norm_num

/-- C9: `from_bytes` fails iff the input has fewer than `HEADER_SIZE`
bytes; on any input of at least `HEADER_SIZE` bytes it succeeds and
the decoded payload is exactly the input minus the 10-byte header. -/
theorem from_bytes_header_check (data : List Nat) :
    (GameNetPacket.from_bytes data = none ↔ data.length < HEADER_SIZE) ∧
      (HEADER_SIZE ≤ data.length →
        ∃ p, GameNetPacket.from_bytes data = some p ∧
          p.payload = data.drop HEADER_SIZE) := by
  constructor
  · rw [GameNetPacket.from_bytes]
    split
    · simpa
    · simp; omega
  · intro h
    rw [GameNetPacket.from_bytes, if_neg (by omega)]
    exact ⟨_, rfl, rfl⟩

/-- Witness for `from_bytes_header_check` at a concrete 12-byte input. -/
theorem from_bytes_header_check_witness :
    HEADER_SIZE ≤ ([1, 0, 5, 0, 0, 0, 9, 0, 0, 0, 42, 43] : List Nat).length ∧
      ∃ p, GameNetPacket.from_bytes [1, 0, 5, 0, 0, 0, 9, 0, 0, 0, 42, 43] = some p ∧
        p.payload = ([1, 0, 5, 0, 0, 0, 9, 0, 0, 0, 42, 43] : List Nat).drop HEADER_SIZE :=
  ⟨by decide, (from_bytes_header_check [1, 0, 5, 0, 0, 0, 9, 0, 0, 0, 42, 43]).2 (by decide)⟩

/-! ## Association lists

Python `dict`s keyed by sequence numbers (`send_window`,
`reliable_buffer`) are modelled as association lists with unique keys;
the operations below mirror `d.get(k)` / `k in d` / `del d[k]` /
in-place value update. -/

/-- Python `d.get(k)`. -/
def lookupKey {α : Type} (k : Nat) : List (Nat × α) → Option α
  | [] => none
  | (k', v) :: rest => if k' = k then some v else lookupKey k rest

/-- Python `k in d`. -/
def hasKey {α : Type} (k : Nat) : List (Nat × α) → Bool
  | [] => false
  | (k', _) :: rest => k' = k || hasKey k rest

/-- Python `del d[k]`. -/
def eraseKey {α : Type} (k : Nat) : List (Nat × α) → List (Nat × α)
  | [] => []
  | (k', v) :: rest => if k' = k then rest else (k', v) :: eraseKey k rest

/-- In-place update of the value stored under `k` (Python mutates the
entry dict, e.g. `entry["resend_count"] += 1`). -/
def updateKey {α : Type} (k : Nat) (f : α → α) : List (Nat × α) → List (Nat × α)
  | [] => []
  | (k', v) :: rest =>
      if k' = k then (k', f v) :: rest else (k', v) :: updateKey k f rest

theorem lookupKey_eq_none {α : Type} (k : Nat) (l : List (Nat × α))
    (h : ∀ e ∈ l, e.1 ≠ k) : lookupKey k l = none := by
  induction l with
  | nil => rfl
  | cons e rest ih =>
    obtain ⟨k', v⟩ := e
    simp only [lookupKey, if_neg (h (k', v) (by simp))]
    exact ih fun e he => h e (by simp [he])

theorem lookupKey_eraseKey_self {α : Type} (k : Nat) (l : List (Nat × α))
    (h : (l.map Prod.fst).Nodup) : lookupKey k (eraseKey k l) = none := by
  induction l with
  | nil => rfl
  | cons e rest ih =>
    obtain ⟨k', v⟩ := e
    simp only [List.map_cons, List.nodup_cons, List.mem_map] at h
    by_cases hk : k' = k
    · subst hk
      simp only [eraseKey, if_pos rfl]
      refine lookupKey_eq_none _ _ fun e he hc => h.1 ⟨e, he, hc⟩
    · simp only [eraseKey, if_neg hk, lookupKey]
      exact ih h.2

theorem lookupKey_updateKey_self {α : Type} (k : Nat) (f : α → α)
    (l : List (Nat × α)) :
    lookupKey k (updateKey k f l) = (lookupKey k l).map f := by
  induction l with
  | nil => rfl
  | cons e rest ih =>
    obtain ⟨k', v⟩ := e
    by_cases hk : k' = k
    · simp [updateKey, lookupKey, hk]
    · simp only [updateKey, if_neg hk, lookupKey]
      exact ih

/-! ## Client state (`GameNetAPI` in client mode) -/

/-- A `send_window` entry: `{"packet": ..., "timer": ..., "resend_count": ...}`.
The `threading.Timer` object is not part of the data model; firing the
timer is the event `retransmit_packet`. -/
structure SendEntry where
  packet : GameNetPacket
  resend_count : Nat
deriving DecidableEq

/-- Client-mode state of `GameNetAPI` (`_init_client_state`), with a
ghost `sent_datagrams` log recording every packet handed to
`sock.sendto`. -/
structure ClientState where
  seq_num : Nat
  timeout : ℚ
  max_resend_count : ℚ
  buffer : List (List Nat × Nat)
  send_window : List (Nat × SendEntry)
  total_reliable_sent : Nat
  total_unreliable_sent : Nat
  sent_datagrams : List GameNetPacket
  sock_open : Bool
deriving DecidableEq

/-- `_init_client_state`: `max_resend_count = RETRANSMISSION_THRESHOLD
// self.timeout` (Python float floor-division; exact here because
0.2 / 0.05 is an exact power-of-two-scaled float quotient). -/
def init_client (seq0 : Nat) (timeout : ℚ) : ClientState where
  seq_num := seq0
  timeout := timeout
  max_resend_count := (Int.floor (RETRANSMISSION_THRESHOLD / timeout) : ℚ)
  buffer := []
  send_window := []
  total_reliable_sent := 0
  total_unreliable_sent := 0
  sent_datagrams := []
  sock_open := true

/-- `GameNetAPI.send_packet`: increments the per-channel sent total
(channel 1 reliable, channel 0 unreliable), then appends
`(payload, channel_type)` to the admission buffer. It touches neither
the send window nor the socket. -/
def ClientState.send_packet (st : ClientState) (payload : List Nat)
    (channel_type : Nat) : ClientState :=
  let st :=
    if channel_type = 1 then
      { st with total_reliable_sent := st.total_reliable_sent + 1 }
    else if channel_type = 0 then
      { st with total_unreliable_sent := st.total_unreliable_sent + 1 }
    else st
  { st with buffer := st.buffer ++ [(payload, channel_type)] }

/-- `GameNetAPI.retransmit_packet` (one retransmit-timer fire for
`seq`): no-op if the entry is gone or the socket is closed; if the
resend counter has reached `max_resend_count`, delete the entry (the
`condition.notify()` frees the window slot); otherwise resend the
stored packet bytes unchanged and increment the counter. -/
def ClientState.retransmit_packet (st : ClientState) (seq : Nat) : ClientState :=
  match lookupKey seq st.send_window with
  | none => st
  | some entry =>
    if st.sock_open = false then st
    else if st.max_resend_count ≤ (entry.resend_count : ℚ) then
      { st with send_window := eraseKey seq st.send_window }
    else
      { st with
          sent_datagrams := st.sent_datagrams ++ [entry.packet],
          send_window := updateKey seq
            (fun e => { e with resend_count := e.resend_count + 1 })
            st.send_window }

/-- The counters reported in `close_client`'s `SESSION_END` JSON
summary: `(total_reliable_sent, total_unreliable_sent)`. -/
def ClientState.close_client_summary (st : ClientState) : Nat × Nat :=
  (st.total_reliable_sent, st.total_unreliable_sent)

/-- C4: behaviour of one retransmit-timer fire.  With the default
`TIMEOUT`, the resend cap is `⌊RETRANSMISSION_THRESHOLD / TIMEOUT⌋ =
⌊0.2 / 0.05⌋ = 4`.  A fire on a live entry whose counter has reached 4
drops the entry (frees its slot) and sends nothing; a fire below the
cap resends exactly the stored packet (same sequence number, same
original timestamp) and increments the counter; iterating from a fresh
entry, the packet is retransmitted exactly 4 times and then dropped. -/
theorem retransmit_cap_behavior :
    (∀ s : Nat, (init_client s TIMEOUT).max_resend_count = 4) ∧
    (∀ (st : ClientState) (seq : Nat) (entry : SendEntry),
      (st.send_window.map Prod.fst).Nodup →
      lookupKey seq st.send_window = some entry →
      st.sock_open = true → st.max_resend_count = 4 →
      ((4 ≤ entry.resend_count →
          lookupKey seq (st.retransmit_packet seq).send_window = none ∧
          (st.retransmit_packet seq).sent_datagrams = st.sent_datagrams) ∧
       (entry.resend_count < 4 →
          (st.retransmit_packet seq).sent_datagrams =
            st.sent_datagrams ++ [entry.packet] ∧
          lookupKey seq (st.retransmit_packet seq).send_window =
            some ⟨entry.packet, entry.resend_count + 1⟩))) ∧
    (∀ (pkt : GameNetPacket) (q : Nat),
      let st0 := { init_client 0 TIMEOUT with send_window := [(q, ⟨pkt, 0⟩)] }
      let st4 := ((((st0.retransmit_packet q).retransmit_packet q).retransmit_packet
        q).retransmit_packet q)
      st4.sent_datagrams = [pkt, pkt, pkt, pkt] ∧
      st4.send_window = [(q, ⟨pkt, 4⟩)] ∧
      (st4.retransmit_packet q).send_window = [] ∧
      (st4.retransmit_packet q).sent_datagrams = [pkt, pkt, pkt, pkt]) := by
  have hfloor : (Int.floor (RETRANSMISSION_THRESHOLD / TIMEOUT) : ℚ) = 4 := by
    norm_num [RETRANSMISSION_THRESHOLD, TIMEOUT]
  refine ⟨fun s => hfloor, ?_, ?_⟩
  · intro st seq entry hnd hlook hopen hmax
    constructor
    · intro hcap
      have hc : st.max_resend_count ≤ (entry.resend_count : ℚ) := by
        rw [hmax]; exact_mod_cast hcap
      simp only [ClientState.retransmit_packet, hlook, hopen, Bool.true_eq_false,
        if_false, if_pos hc]
      exact ⟨lookupKey_eraseKey_self seq st.send_window hnd, trivial⟩
    · intro hlt
      have hc : ¬ st.max_resend_count ≤ (entry.resend_count : ℚ) := by
        rw [hmax]; exact_mod_cast Nat.not_le.mpr hlt
      simp only [ClientState.retransmit_packet, hlook, hopen, Bool.true_eq_false,
        if_false, if_neg hc]
      refine ⟨trivial, ?_⟩
      rw [lookupKey_updateKey_self, hlook]
      rfl
  · intro pkt q
    simp only [ClientState.retransmit_packet, init_client, lookupKey, updateKey,
      eraseKey, if_pos rfl, hfloor]
    norm_num

/-- Witness for `retransmit_cap_behavior`: its hypotheses discharged on
a concrete one-entry send window. -/
theorem retransmit_cap_behavior_witness :
    (init_client 7 TIMEOUT).max_resend_count = 4 ∧
      (let st := { init_client 7 TIMEOUT with
        send_window := [(3, ⟨⟨1, 3, 0, 0, 0, [9]⟩, 4⟩)] }
      lookupKey 3 (st.retransmit_packet 3).send_window = none ∧
        (st.retransmit_packet 3).sent_datagrams = st.sent_datagrams) := by
  refine ⟨retransmit_cap_behavior.1 7, ?_⟩
  exact (retransmit_cap_behavior.2.1 _ 3 ⟨⟨1, 3, 0, 0, 0, [9]⟩, 4⟩
    (by decide) (by decide) (by decide)
    (by simp [init_client]; exact retransmit_cap_behavior.1 7)).1 (by decide)

theorem send_packet_fields (st : ClientState) (payload : List Nat) (ch : Nat) :
    (st.send_packet payload ch).total_reliable_sent
        = st.total_reliable_sent + (if ch = 1 then 1 else 0) ∧
      (st.send_packet payload ch).total_unreliable_sent
        = st.total_unreliable_sent + (if ch = 0 then 1 else 0) ∧
      (st.send_packet payload ch).send_window = st.send_window ∧
      (st.send_packet payload ch).sent_datagrams = st.sent_datagrams ∧
      (st.send_packet payload ch).buffer = st.buffer ++ [(payload, ch)] := by
  unfold ClientState.send_packet
  split_ifs <;> simp_all

theorem send_packet_foldl (sends : List (List Nat × Nat)) (st : ClientState) :
    (sends.foldl (fun s pc => s.send_packet pc.1 pc.2) st).total_reliable_sent
        = st.total_reliable_sent + (sends.filter fun pc => pc.2 = 1).length ∧
      (sends.foldl (fun s pc => s.send_packet pc.1 pc.2) st).total_unreliable_sent
        = st.total_unreliable_sent + (sends.filter fun pc => pc.2 = 0).length ∧
      (sends.foldl (fun s pc => s.send_packet pc.1 pc.2) st).send_window
        = st.send_window ∧
      (sends.foldl (fun s pc => s.send_packet pc.1 pc.2) st).sent_datagrams
        = st.sent_datagrams ∧
      (sends.foldl (fun s pc => s.send_packet pc.1 pc.2) st).buffer
        = st.buffer ++ sends := by
  induction sends generalizing st with
  | nil => simp
  | cons pc rest ih =>
    obtain ⟨pay, ch⟩ := pc
    simp only [List.foldl_cons, List.filter_cons]
    obtain ⟨ih1, ih2, ih3, ih4, ih5⟩ := ih (st.send_packet pay ch)
    obtain ⟨f1, f2, f3, f4, f5⟩ := send_packet_fields st pay ch
    rw [ih1, ih2, ih3, ih4, ih5, f1, f2, f3, f4, f5]
    by_cases h1 : ch = 1
    · simp [h1]; omega
    · by_cases h0 : ch = 0
      · simp [h0, h1]; omega
      · simp [h0, h1]

/-- C10: after any sequence of `send_packet` calls from a fresh client,
the session summary that `close_client` would send reports exactly the
number of channel-1 and channel-0 payloads accepted by `send_packet` —
counted at enqueue time: the send window was never touched, nothing was
transmitted, and every payload still sits in the admission buffer. -/
theorem send_packet_counts_at_enqueue (sends : List (List Nat × Nat))
    (seq0 : Nat) (timeout : ℚ) :
    (sends.foldl (fun s pc => s.send_packet pc.1 pc.2)
        (init_client seq0 timeout)).close_client_summary
        = ((sends.filter fun pc => pc.2 = 1).length,
            (sends.filter fun pc => pc.2 = 0).length) ∧
      (sends.foldl (fun s pc => s.send_packet pc.1 pc.2)
        (init_client seq0 timeout)).send_window = [] ∧
      (sends.foldl (fun s pc => s.send_packet pc.1 pc.2)
        (init_client seq0 timeout)).sent_datagrams = [] ∧
      (sends.foldl (fun s pc => s.send_packet pc.1 pc.2)
        (init_client seq0 timeout)).buffer = sends := by
  obtain ⟨h1, h2, h3, h4, h5⟩ := send_packet_foldl sends (init_client seq0 timeout)
  refine ⟨?_, ?_, ?_, ?_⟩
  · rw [ClientState.close_client_summary, h1, h2]
    simp [init_client]
  · rw [h3]; rfl
  · rw [h4]; rfl
  · rw [h5]; rfl

/-! ## Server state (`GameNetAPI` in server mode)

Wall-clock time is an explicit `now : ℚ` argument (seconds).  The
non-blocking socket is modelled as an `inbox` queue of already-decoded
datagrams together with their sender address; `recvfrom` pops its
head, an empty inbox is `BlockingIOError`.  JSON decoding of a
session-summary payload (`json.loads` + `.get` of the two counters) is
an external collaborator, passed in as a function `jp` that returns
`none` when the payload is malformed.

Ghost instrumentation (not in the Python state, written only where the
mirrored effect happens): `acks_sent` / `ssacks_sent` record datagrams
the server emits, `delivery_log` records each sequence number appended
to `output_buffer`, `advances` counts every increment of
`expected_sequence`, `advance_log` records the value of `advances` at
each `delivery_log` append, and `base` records the sequence number
that seeded `expected_sequence`. -/
structure ServerState where
  reliable_buffer : List (Nat × GameNetPacket)
  expected_sequence : Nat
  first_reliable_packet : Bool
  window_size : Nat
  timeout : ℚ
  waiting_for_seq : Option Nat
  waiting_start_time : Option ℚ
  output_buffer : List (List Nat × Nat)
  client_addr : Option Nat
  packets_received_reliable : Nat
  duplicates : Nat
  out_of_order : Nat
  timeouts : Nat
  bytes_received_reliable : Nat
  latencies_reliable : List ℚ
  packets_received_unreliable : Nat
  bytes_received_unreliable : Nat
  latencies_unreliable : List ℚ
  total_reliable_sent : Nat
  total_unreliable_sent : Nat
  total_reliable_success : Nat
  start_time : Option ℚ
  acks_sent : List Nat
  ssacks_sent : Nat
  delivery_log : List Nat
  advance_log : List Nat
  advances : Nat
  base : Nat
deriving DecidableEq

/-- `__init__` (server mode) + `_init_server_state`.  The gap-timeout
threshold is the constructor argument `timeout`, whose default is
`TIMEOUT`. -/
def init_server (timeout : ℚ) : ServerState where
  reliable_buffer := []
  expected_sequence := 0
  first_reliable_packet := true
  window_size := SR_WINDOW_SIZE
  timeout := timeout
  waiting_for_seq := none
  waiting_start_time := none
  output_buffer := []
  client_addr := none
  packets_received_reliable := 0
  duplicates := 0
  out_of_order := 0
  timeouts := 0
  bytes_received_reliable := 0
  latencies_reliable := []
  packets_received_unreliable := 0
  bytes_received_unreliable := 0
  latencies_unreliable := []
  total_reliable_sent := 0
  total_unreliable_sent := 0
  total_reliable_success := 0
  start_time := none
  acks_sent := []
  ssacks_sent := 0
  delivery_log := []
  advance_log := []
  advances := 0
  base := 0

/-- `_calculate_latency`: `(time.time() * 1000) - packet.time_stamp`
when the timestamp is positive, else 0. -/
def calculate_latency (pkt : GameNetPacket) (now : ℚ) : ℚ :=
  if 0 < pkt.time_stamp then now * 1000 - (pkt.time_stamp : ℚ) else 0

/-- `_is_within_receive_window`: `(seq_num - expected_sequence) %
MAX_SEQ_NUM < window_size` with Python integer `%` (`Int.emod`). -/
def ServerState.is_within_receive_window (st : ServerState) (s : Nat) : Bool :=
  decide (((s : ℤ) - st.expected_sequence) % (MAX_SEQ_NUM : ℤ) < (st.window_size : ℤ))

/-- `_has_been_delivered`: behind-window test
`0 < (expected_sequence - seq_num) % MAX_SEQ_NUM < HALF_SEQ_SPACE`. -/
def ServerState.has_been_delivered (st : ServerState) (s : Nat) : Bool :=
  if s = st.expected_sequence then false
  else decide (0 < ((st.expected_sequence : ℤ) - s) % (MAX_SEQ_NUM : ℤ) ∧
    ((st.expected_sequence : ℤ) - s) % (MAX_SEQ_NUM : ℤ) < (HALF_SEQ_SPACE : ℤ))

/-- `_start_waiting`. -/
def ServerState.start_waiting (st : ServerState) (s : Nat) (now : ℚ) : ServerState :=
  if st.waiting_for_seq ≠ some s then
    { st with waiting_for_seq := some s, waiting_start_time := some now }
  else st

/-- `_send_ack` (ghost-logged; only fires once a peer address is known). -/
def ServerState.send_ack (st : ServerState) (s : Nat) : ServerState :=
  if st.client_addr ≠ none then { st with acks_sent := st.acks_sent ++ [s] } else st

/-- `_send_session_ack` (ghost-counted). -/
def ServerState.send_session_ack (st : ServerState) : ServerState :=
  if st.client_addr ≠ none then { st with ssacks_sent := st.ssacks_sent + 1 } else st

/-- `_process_session_summary` applied to the result of JSON decoding:
on success store the two sent totals, on failure (the `except` branch)
only log — no state change. -/
def ServerState.process_session_summary (st : ServerState)
    (parsed : Option (Nat × Nat)) : ServerState :=
  match parsed with
  | some (r, u) => { st with total_reliable_sent := r, total_unreliable_sent := u }
  | none => st

theorem length_eraseKey_of_lookupKey {α : Type} (k : Nat) (l : List (Nat × α))
    (v : α) (h : lookupKey k l = some v) :
    (eraseKey k l).length + 1 = l.length := by
  induction l with
  | nil => simp [lookupKey] at h
  | cons e rest ih =>
    obtain ⟨k', v'⟩ := e
    by_cases hk : k' = k
    · simp [eraseKey, hk]
    · simp only [lookupKey, if_neg hk] at h
      simpa [eraseKey, hk] using ih h

theorem hasKey_of_lookupKey_some {α : Type} (k : Nat) (l : List (Nat × α))
    (v : α) (h : lookupKey k l = some v) : hasKey k l = true := by
  induction l with
  | nil => simp [lookupKey] at h
  | cons e rest ih =>
    obtain ⟨k', v'⟩ := e
    by_cases hk : k' = k
    · simp [hasKey, hk]
    · simp only [lookupKey, if_neg hk] at h
      simp [hasKey, hk, ih h]

theorem hasKey_false_iff_lookupKey_none {α : Type} (k : Nat) (l : List (Nat × α)) :
    hasKey k l = false ↔ lookupKey k l = none := by
  induction l with
  | nil => simp [lookupKey, hasKey]
  | cons e rest ih =>
    obtain ⟨k', v'⟩ := e
    by_cases hk : k' = k
    · simp [hasKey, lookupKey, hk]
    · simp [hasKey, lookupKey, hk, ih]

theorem hasKey_eraseKey_mono {α : Type} (k j : Nat) (l : List (Nat × α))
    (h : hasKey k (eraseKey j l) = true) : hasKey k l = true := by
  induction l with
  | nil => simpa [eraseKey] using h
  | cons e rest ih =>
    obtain ⟨k', v'⟩ := e
    by_cases hj : k' = j
    · simp only [eraseKey, if_pos hj] at h
      simp [hasKey, h]
    · simp only [eraseKey, if_neg hj, hasKey, Bool.or_eq_true] at h ⊢
      rcases h with h | h
      · exact Or.inl h
      · exact Or.inr (ih h)

/-- The body of the `while expected_sequence in reliable_buffer` loop
of `_drain_in_order`, with an explicit iteration bound: pop the
expected packet, append its `(payload, channel_type)` to the output
buffer, advance the cursor, repeat; the `Bool` is `delivered_any`.
Each iteration removes one `reliable_buffer` entry, so a bound of
`reliable_buffer.length + 1` (what `drain_loop` passes) is never
reached; `drain_go_spec` shows the loop exits through its guard. -/
def drain_go : Nat → ServerState → ServerState × Bool
  | 0, st => (st, false)
  | fuel + 1, st =>
    match lookupKey st.expected_sequence st.reliable_buffer with
    | none => (st, false)
    | some pkt =>
      let st' := { st with
        reliable_buffer := eraseKey st.expected_sequence st.reliable_buffer
        output_buffer := st.output_buffer ++ [(pkt.payload, pkt.channel_type)]
        delivery_log := st.delivery_log ++ [st.expected_sequence]
        advance_log := st.advance_log ++ [st.advances]
        advances := st.advances + 1
        expected_sequence := (st.expected_sequence + 1) % MAX_SEQ_NUM }
      ((drain_go fuel st').1, true)

/-- The `while` loop of `_drain_in_order`. -/
def ServerState.drain_loop (st : ServerState) : ServerState × Bool :=
  drain_go (st.reliable_buffer.length + 1) st

/-- `_drain_in_order`: the drain loop followed by its gap-wait update
(`delivered_any` guard). -/
def ServerState.drain_in_order (st : ServerState) (now : ℚ) : ServerState :=
  let res := st.drain_loop
  if res.2 then
    if hasKey res.1.expected_sequence res.1.reliable_buffer then
      { res.1 with waiting_start_time := none, waiting_for_seq := none }
    else res.1.start_waiting res.1.expected_sequence now
  else res.1

/-- `_check_timeout`: if a gap wait is armed for the current
`expected_sequence` and `now - waiting_start_time >= self.timeout`,
count a timeout, advance the cursor by one slot, drain, and re-arm or
clear the gap wait. -/
def ServerState.check_timeout (st : ServerState) (now : ℚ) : ServerState :=
  match st.waiting_start_time with
  | none => st
  | some t0 =>
    if st.waiting_for_seq = some st.expected_sequence ∧ st.timeout ≤ now - t0 then
      let st1 := { st with
        timeouts := st.timeouts + 1
        expected_sequence := (st.expected_sequence + 1) % MAX_SEQ_NUM
        advances := st.advances + 1 }
      let st2 := st1.drain_in_order now
      if hasKey st2.expected_sequence st2.reliable_buffer then
        { st2 with waiting_start_time := none, waiting_for_seq := none }
      else st2.start_waiting st2.expected_sequence now
    else st

/-- The metrics prologue of the reliable branch of `_process_socket`
(`packets_received`, `bytes_received`, conditional latency sample). -/
def ServerState.record_reliable_metrics (st : ServerState) (pkt : GameNetPacket)
    (latency : ℚ) : ServerState :=
  let st := { st with
    packets_received_reliable := st.packets_received_reliable + 1
    bytes_received_reliable := st.bytes_received_reliable + pkt.payload.length }
  if 0 < latency then
    { st with latencies_reliable := st.latencies_reliable ++ [latency] }
  else st

/-- The `first_reliable_packet` initialisation of `_process_socket`:
seed `expected_sequence` from the first reliable arrival and arm the
gap wait (ghost: record the seed in `base` and restart `advances`). -/
def ServerState.init_first_packet (st : ServerState) (pkt : GameNetPacket)
    (now : ℚ) : ServerState :=
  if st.first_reliable_packet then
    ({ st with
      expected_sequence := pkt.seq_num
      first_reliable_packet := false
      base := pkt.seq_num
      advances := 0 }).start_waiting pkt.seq_num now
  else st

/-- The three-way classification of a reliable arrival in
`_process_socket`: behind-window duplicate (re-ACK only), within
window (buffer if new else count duplicate, ACK, drain), or
out-of-window (silently dropped, no ACK). -/
def ServerState.classify_reliable (st : ServerState) (pkt : GameNetPacket)
    (now : ℚ) : ServerState :=
  if st.has_been_delivered pkt.seq_num then
    ({ st with duplicates := st.duplicates + 1 }).send_ack pkt.seq_num
  else if st.is_within_receive_window pkt.seq_num then
    let st1 :=
      if hasKey pkt.seq_num st.reliable_buffer = false then
        let stb := { st with
          reliable_buffer := st.reliable_buffer ++ [(pkt.seq_num, pkt)] }
        let stc := if pkt.seq_num ≠ stb.expected_sequence then
          { stb with out_of_order := stb.out_of_order + 1 } else stb
        { stc with total_reliable_success := stc.total_reliable_success + 1 }
      else { st with duplicates := st.duplicates + 1 }
    (st1.send_ack pkt.seq_num).drain_in_order now
  else st

/-- The reliable-channel block of `_process_socket`: metrics, then
first-packet initialisation, then classification. -/
def ServerState.process_reliable (st : ServerState) (pkt : GameNetPacket)
    (latency : ℚ) (now : ℚ) : ServerState :=
  ((st.record_reliable_metrics pkt latency).init_first_packet pkt now).classify_reliable
    pkt now

/-- One full `_process_socket` call (one `_receive_loop` iteration):
record `start_time`, run `_check_timeout`, pop a pending output-buffer
entry if any, else receive the next datagram (if any) and dispatch on
its channel type; the reliable branch ends by popping a freshly
drained output entry. -/
def ServerState.process_socket (jp : List Nat → Option (Nat × Nat))
    (st : ServerState) (inbox : List (GameNetPacket × Nat)) (now : ℚ) :
    ServerState × List (GameNetPacket × Nat) × Option (List Nat × Nat) :=
  let st := if st.start_time = none then { st with start_time := some now } else st
  let st := st.check_timeout now
  match st.output_buffer with
  | entry :: rest => ({ st with output_buffer := rest }, inbox, some entry)
  | [] =>
    match inbox with
    | [] => (st, [], none)
    | (pkt, addr) :: inboxRest =>
      let st := { st with client_addr := some addr }
      let latency := calculate_latency pkt now
      if pkt.channel_type = 0 then
        let st := { st with
          packets_received_unreliable := st.packets_received_unreliable + 1
          bytes_received_unreliable := st.bytes_received_unreliable + pkt.payload.length }
        let st := if 0 < latency then
          { st with latencies_unreliable := st.latencies_unreliable ++ [latency] } else st
        (st, inboxRest, some (pkt.payload, pkt.channel_type))
      else if pkt.channel_type = 2 then
        ((st.process_session_summary (jp pkt.payload)).send_session_ack, inboxRest, none)
      else
        let st := st.process_reliable pkt latency now
        match st.output_buffer with
        | entry :: rest => ({ st with output_buffer := rest }, inboxRest, some entry)
        | [] => (st, inboxRest, none)

/-- The `_receive_loop`, iterated over a list of wall-clock instants
(one per loop iteration). -/
def server_run (jp : List Nat → Option (Nat × Nat))
    (st : ServerState) (inbox : List (GameNetPacket × Nat)) (ticks : List ℚ) :
    ServerState × List (GameNetPacket × Nat) :=
  ticks.foldl (fun acc now =>
    let r := ServerState.process_socket jp acc.1 acc.2 now
    (r.1, r.2.1)) (st, inbox)

/-! ## Concrete receiver scenarios -/

/-- A reliable packet with sequence number 3 (zero timestamp, so no
latency sample is recorded). -/
def skip_cex_packet : GameNetPacket := ⟨1, 3, 0, 0, 0, [9]⟩

/-- Receiver waiting for `expected_sequence = 0` since time 0, with
only sequence 3 buffered — the smallest buffered sequence lies three
slots ahead of the cursor. -/
def skip_cex_state : ServerState := { init_server TIMEOUT with
  first_reliable_packet := false
  expected_sequence := 0
  waiting_for_seq := some 0
  waiting_start_time := some 0
  reliable_buffer := [(3, skip_cex_packet)] }

theorem skip_cex_state_eval : skip_cex_state.check_timeout 1 =
    { skip_cex_state with
      timeouts := 1
      expected_sequence := 1
      advances := 1
      waiting_for_seq := some 1
      waiting_start_time := some 1 } := by
  rw [ServerState.check_timeout]
  simp only [skip_cex_state, init_server]
  rw [if_pos (by norm_num [TIMEOUT])]
  rw [ServerState.drain_in_order, ServerState.drain_loop]
  norm_num [drain_go, lookupKey, hasKey, ServerState.start_waiting, MAX_SEQ_NUM,
    skip_cex_packet]

/-- C5 counterexample: on a gap timeout with `expected_sequence = 0`
and only sequence 3 buffered, `_check_timeout` leaves the cursor at 1
— it does not jump to one past the contiguous run of the smallest
buffered sequence (which would be 4) — and moves nothing to the output
buffer: sequence 3 stays buffered. -/
theorem skip_does_not_jump_to_min_counterexample :
    (skip_cex_state.check_timeout 1).expected_sequence = 1 ∧
      (skip_cex_state.check_timeout 1).reliable_buffer = [(3, skip_cex_packet)] ∧
      (skip_cex_state.check_timeout 1).output_buffer = [] ∧
      (skip_cex_state.check_timeout 1).expected_sequence ≠ 4 := by
  rw [skip_cex_state_eval]
  refine ⟨rfl, rfl, rfl, by norm_num⟩

/-- A default-configured server waiting for `expected_sequence = 0`
since time 0 with an empty reassembly buffer. -/
def gap_cex_state : ServerState := { init_server TIMEOUT with
  first_reliable_packet := false
  waiting_for_seq := some 0
  waiting_start_time := some 0 }

theorem gap_cex_state_eval : gap_cex_state.check_timeout (1 / 10) =
    { gap_cex_state with
      timeouts := 1
      expected_sequence := 1
      advances := 1
      waiting_for_seq := some 1
      waiting_start_time := some (1 / 10) } := by
  rw [ServerState.check_timeout]
  simp only [gap_cex_state, init_server]
  rw [if_pos (by norm_num [TIMEOUT])]
  rw [ServerState.drain_in_order, ServerState.drain_loop]
  norm_num [drain_go, lookupKey, hasKey, ServerState.start_waiting, MAX_SEQ_NUM]

/-- C6: the gap-skip threshold actually used by `_check_timeout` is
the constructor `timeout` (default `TIMEOUT = 0.05 s`), not
`RETRANSMISSION_THRESHOLD = 0.2 s`: a default-configured server whose
gap wait started at time 0 already skips at time 0.1 s, although
0.1 s is well below `RETRANSMISSION_THRESHOLD`. -/
theorem gap_skip_threshold_is_constructor_timeout :
    (init_server TIMEOUT).timeout = TIMEOUT ∧
      TIMEOUT < RETRANSMISSION_THRESHOLD ∧
      (1 / 10 : ℚ) < RETRANSMISSION_THRESHOLD ∧
      (gap_cex_state.check_timeout (1 / 10)).timeouts =
        gap_cex_state.timeouts + 1 ∧
      (gap_cex_state.check_timeout (1 / 10)).expected_sequence = 1 := by
  rw [gap_cex_state_eval]
  refine ⟨rfl, by norm_num [TIMEOUT, RETRANSMISSION_THRESHOLD],
    by norm_num [RETRANSMISSION_THRESHOLD], rfl, rfl⟩

/-- Server that has learned a peer address and stored sent totals
(3, 4) from an earlier valid summary. -/
def summary_cex_state : ServerState := { init_server TIMEOUT with
  client_addr := some 0
  total_reliable_sent := 3
  total_unreliable_sent := 4 }

/-- C7 counterexample: a channel-2 datagram whose payload fails JSON
decoding (`jp` returns `none`) leaves the stored sent totals — and the
rest of the receiver state — unchanged, but the server nevertheless
sends a session-summary ACK: `_send_session_ack()` runs
unconditionally after `_process_session_summary` swallows the
exception. -/
theorem malformed_summary_still_acked_counterexample :
    ((ServerState.process_socket (fun _ => none) summary_cex_state
        [(⟨2, 0, 0, 0, 0, [104, 105]⟩, 0)] 0).1.ssacks_sent = 1 ∧
      (ServerState.process_socket (fun _ => none) summary_cex_state
        [(⟨2, 0, 0, 0, 0, [104, 105]⟩, 0)] 0).1.total_reliable_sent = 3 ∧
      (ServerState.process_socket (fun _ => none) summary_cex_state
        [(⟨2, 0, 0, 0, 0, [104, 105]⟩, 0)] 0).1.total_unreliable_sent = 4 ∧
      (ServerState.process_socket (fun _ => none) summary_cex_state
        [(⟨2, 0, 0, 0, 0, [104, 105]⟩, 0)] 0).2.2 = none) ∧
      summary_cex_state.ssacks_sent = 0 := by
  have h : ServerState.process_socket (fun _ => none) summary_cex_state
      [(⟨2, 0, 0, 0, 0, [104, 105]⟩, 0)] 0 =
      ({ summary_cex_state with start_time := some 0, ssacks_sent := 1 }, [], none) := by
    rw [ServerState.process_socket]
    simp only [summary_cex_state, init_server]
    norm_num [ServerState.check_timeout, ServerState.process_session_summary,
      ServerState.send_session_ack]
    simp
  rw [h]
  exact ⟨⟨rfl, rfl, rfl, rfl⟩, rfl⟩

/-- C7 (amended): on a session summary whose payload fails JSON
decoding, the handler pair `_process_session_summary` +
`_send_session_ack` leaves every stored field — in particular the two
sent totals — unchanged, except that it still emits one
session-summary ACK (the peer address is known, having just been
learned from the datagram). -/
theorem malformed_summary_state_unchanged_but_acked (st : ServerState)
    (h : st.client_addr ≠ none) :
    (st.process_session_summary none).send_session_ack =
      { st with ssacks_sent := st.ssacks_sent + 1 } := by
  simp [ServerState.process_session_summary, ServerState.send_session_ack, h]

/-- Witness for `malformed_summary_state_unchanged_but_acked`. -/
theorem malformed_summary_state_unchanged_but_acked_witness :
    summary_cex_state.client_addr ≠ none ∧
      (summary_cex_state.process_session_summary none).send_session_ack =
        { summary_cex_state with ssacks_sent := summary_cex_state.ssacks_sent + 1 } :=
  ⟨by decide, malformed_summary_state_unchanged_but_acked
    summary_cex_state (by decide)⟩

theorem MAX_pos : 0 < MAX_SEQ_NUM := by norm_num [MAX_SEQ_NUM]

theorem drain_go_spec : ∀ (fuel : Nat) (st : ServerState),
    st.reliable_buffer.length < fuel → st.expected_sequence < MAX_SEQ_NUM →
    ∃ (r : Nat) (pays : List (List Nat × Nat)) (buf : List (Nat × GameNetPacket)),
      (drain_go fuel st).1 = { st with
        reliable_buffer := buf
        output_buffer := st.output_buffer ++ pays
        delivery_log := st.delivery_log ++
          (List.range r).map (fun i => (st.expected_sequence + i) % MAX_SEQ_NUM)
        advance_log := st.advance_log ++ (List.range r).map (fun i => st.advances + i)
        advances := st.advances + r
        expected_sequence := (st.expected_sequence + r) % MAX_SEQ_NUM } ∧
      (drain_go fuel st).2 = decide (0 < r) ∧
      pays.length = r ∧
      buf.length + r = st.reliable_buffer.length ∧
      lookupKey ((st.expected_sequence + r) % MAX_SEQ_NUM) buf = none ∧
      (∀ k, hasKey k buf = true → hasKey k st.reliable_buffer = true) ∧
      (∀ i, i < r → hasKey ((st.expected_sequence + i) % MAX_SEQ_NUM)
        st.reliable_buffer = true) := by
  intro fuel
  induction fuel with
  | zero => intro st hfuel _; omega
  | succ fuel ih =>
    intro st hfuel hexp
    match hl : lookupKey st.expected_sequence st.reliable_buffer with
    | none =>
      refine ⟨0, [], st.reliable_buffer, ?_, ?_, rfl, rfl, ?_, fun k h => h, by omega⟩
      · simp only [drain_go, hl]
        simp [Nat.mod_eq_of_lt hexp]
      · simp only [drain_go, hl]
        simp
      · simpa [Nat.mod_eq_of_lt hexp] using hl
    | some pkt =>
      have hlen := length_eraseKey_of_lookupKey _ _ _ hl
      set st' : ServerState := { st with
        reliable_buffer := eraseKey st.expected_sequence st.reliable_buffer
        output_buffer := st.output_buffer ++ [(pkt.payload, pkt.channel_type)]
        delivery_log := st.delivery_log ++ [st.expected_sequence]
        advance_log := st.advance_log ++ [st.advances]
        advances := st.advances + 1
        expected_sequence := (st.expected_sequence + 1) % MAX_SEQ_NUM } with hst'
      obtain ⟨r', pays', buf', hrec, hbool, hplen, hblen, hlook, hmono, hin⟩ :=
        ih st' (by simp [hst']; omega) (by simp [hst']; exact Nat.mod_lt _ MAX_pos)
      have hgo : drain_go (fuel + 1) st = ((drain_go fuel st').1, true) := by
        simp only [drain_go, hl]
      refine ⟨r' + 1, (pkt.payload, pkt.channel_type) :: pays', buf', ?_, ?_, ?_, ?_, ?_, ?_, ?_⟩
      · rw [hgo]
        simp only [hrec, hst']
        congr 1 <;> try rfl
        · -- expected_sequence
          rw [Nat.mod_add_mod]
          congr 1
          omega
        · -- output_buffer
          simp
        · -- delivery_log
          rw [List.append_assoc]
          congr 1
          rw [List.range_succ_eq_map, List.map_cons, List.singleton_append]
          simp only [Nat.add_zero, Nat.mod_eq_of_lt hexp]
          congr 1
          rw [List.map_map]
          congr 1
          funext i
          simp only [Function.comp_apply]
          rw [Nat.mod_add_mod]
          congr 1
          omega
        · -- advance_log
          rw [List.append_assoc]
          congr 1
          rw [List.range_succ_eq_map, List.map_cons, List.singleton_append]
          simp only [Nat.add_zero]
          congr 1
          rw [List.map_map]
          congr 1
          funext i
          simp only [Function.comp_apply]
          omega
        · -- advances
          omega
      · rw [hgo]
        simp
      · simp [hplen]
      · simp only [hst'] at hblen
        omega
      · rw [show (st.expected_sequence + (r' + 1)) % MAX_SEQ_NUM =
          (st'.expected_sequence + r') % MAX_SEQ_NUM by
            simp only [hst']
            rw [Nat.mod_add_mod]
            congr 1
            omega]
        exact hlook
      · intro k hk
        exact hasKey_eraseKey_mono _ _ _ (hmono k hk)
      · intro i hi
        match i with
        | 0 =>
          rw [Nat.add_zero, Nat.mod_eq_of_lt hexp]
          exact hasKey_of_lookupKey_some _ _ _ hl
        | j + 1 =>
          have := hin j (by omega)
          simp only [hst'] at this
          rw [Nat.mod_add_mod] at this
          rw [show st.expected_sequence + (j + 1) = st.expected_sequence + 1 + j by omega]
          exact hasKey_eraseKey_mono _ _ _ this

/-- `drain_loop` satisfies the drain specification: from a cursor
below `MAX_SEQ_NUM` it moves the maximal contiguous buffered run
starting at the cursor to the output buffer, in cursor order,
advancing the cursor past each moved packet. -/
theorem drain_loop_spec (st : ServerState)
    (hexp : st.expected_sequence < MAX_SEQ_NUM) :
    ∃ (r : Nat) (pays : List (List Nat × Nat)) (buf : List (Nat × GameNetPacket)),
      st.drain_loop.1 = { st with
        reliable_buffer := buf
        output_buffer := st.output_buffer ++ pays
        delivery_log := st.delivery_log ++
          (List.range r).map (fun i => (st.expected_sequence + i) % MAX_SEQ_NUM)
        advance_log := st.advance_log ++ (List.range r).map (fun i => st.advances + i)
        advances := st.advances + r
        expected_sequence := (st.expected_sequence + r) % MAX_SEQ_NUM } ∧
      st.drain_loop.2 = decide (0 < r) ∧
      pays.length = r ∧
      buf.length + r = st.reliable_buffer.length ∧
      lookupKey ((st.expected_sequence + r) % MAX_SEQ_NUM) buf = none ∧
      (∀ k, hasKey k buf = true → hasKey k st.reliable_buffer = true) ∧
      (∀ i, i < r → hasKey ((st.expected_sequence + i) % MAX_SEQ_NUM)
        st.reliable_buffer = true) :=
  drain_go_spec (st.reliable_buffer.length + 1) st (by omega) hexp

/-- `_drain_in_order` only adds a gap-wait update on top of the drain
loop; every field other than the two waiting fields is the drain
loop's. -/
theorem drain_in_order_fields (st : ServerState) (now : ℚ) :
    (st.drain_in_order now).reliable_buffer = st.drain_loop.1.reliable_buffer ∧
      (st.drain_in_order now).expected_sequence = st.drain_loop.1.expected_sequence ∧
      (st.drain_in_order now).output_buffer = st.drain_loop.1.output_buffer ∧
      (st.drain_in_order now).delivery_log = st.drain_loop.1.delivery_log ∧
      (st.drain_in_order now).advance_log = st.drain_loop.1.advance_log ∧
      (st.drain_in_order now).advances = st.drain_loop.1.advances ∧
      (st.drain_in_order now).base = st.drain_loop.1.base ∧
      (st.drain_in_order now).first_reliable_packet =
        st.drain_loop.1.first_reliable_packet ∧
      (st.drain_in_order now).timeouts = st.drain_loop.1.timeouts ∧
      (st.drain_in_order now).duplicates = st.drain_loop.1.duplicates ∧
      (st.drain_in_order now).acks_sent = st.drain_loop.1.acks_sent ∧
      (st.drain_in_order now).window_size = st.drain_loop.1.window_size ∧
      (st.drain_in_order now).timeout = st.drain_loop.1.timeout := by
  rw [ServerState.drain_in_order]
  split <;> [skip; exact ⟨rfl, rfl, rfl, rfl, rfl, rfl, rfl, rfl, rfl, rfl, rfl, rfl, rfl⟩]
  split
  · exact ⟨rfl, rfl, rfl, rfl, rfl, rfl, rfl, rfl, rfl, rfl, rfl, rfl, rfl⟩
  · rw [ServerState.start_waiting]
    split <;> exact ⟨rfl, rfl, rfl, rfl, rfl, rfl, rfl, rfl, rfl, rfl, rfl, rfl, rfl⟩

/-- `_start_waiting` touches only the two gap-wait fields. -/
theorem start_waiting_fields (st : ServerState) (s : Nat) (now : ℚ) :
    (st.start_waiting s now).reliable_buffer = st.reliable_buffer ∧
      (st.start_waiting s now).expected_sequence = st.expected_sequence ∧
      (st.start_waiting s now).output_buffer = st.output_buffer ∧
      (st.start_waiting s now).delivery_log = st.delivery_log ∧
      (st.start_waiting s now).advance_log = st.advance_log ∧
      (st.start_waiting s now).advances = st.advances ∧
      (st.start_waiting s now).base = st.base ∧
      (st.start_waiting s now).first_reliable_packet = st.first_reliable_packet ∧
      (st.start_waiting s now).timeouts = st.timeouts ∧
      (st.start_waiting s now).duplicates = st.duplicates ∧
      (st.start_waiting s now).acks_sent = st.acks_sent ∧
      (st.start_waiting s now).window_size = st.window_size ∧
      (st.start_waiting s now).timeout = st.timeout := by
  rw [ServerState.start_waiting]
  split <;> exact ⟨rfl, rfl, rfl, rfl, rfl, rfl, rfl, rfl, rfl, rfl, rfl, rfl, rfl⟩

/-- What one firing gap timeout does (`_check_timeout` with its guard
true): count one timeout, advance the cursor by exactly one slot, then
move the maximal contiguous buffered run starting at the new cursor to
the output buffer in cursor order. -/
theorem check_timeout_fire_spec (st : ServerState) (now t0 : ℚ)
    (hw : st.waiting_start_time = some t0)
    (hwf : st.waiting_for_seq = some st.expected_sequence)
    (hel : st.timeout ≤ now - t0) :
    ∃ (r : Nat) (pays : List (List Nat × Nat)) (buf : List (Nat × GameNetPacket)),
      (st.check_timeout now).timeouts = st.timeouts + 1 ∧
      (st.check_timeout now).expected_sequence =
        (st.expected_sequence + 1 + r) % MAX_SEQ_NUM ∧
      (st.check_timeout now).delivery_log = st.delivery_log ++
        (List.range r).map (fun i => (st.expected_sequence + 1 + i) % MAX_SEQ_NUM) ∧
      (st.check_timeout now).advance_log = st.advance_log ++
        (List.range r).map (fun i => st.advances + 1 + i) ∧
      (st.check_timeout now).advances = st.advances + 1 + r ∧
      (st.check_timeout now).output_buffer = st.output_buffer ++ pays ∧
      pays.length = r ∧
      (∀ i, i < r → hasKey ((st.expected_sequence + 1 + i) % MAX_SEQ_NUM)
        st.reliable_buffer = true) ∧
      (st.check_timeout now).reliable_buffer = buf ∧
      hasKey ((st.expected_sequence + 1 + r) % MAX_SEQ_NUM) buf = false ∧
      (∀ k, hasKey k buf = true → hasKey k st.reliable_buffer = true) ∧
      (st.check_timeout now).base = st.base ∧
      (st.check_timeout now).first_reliable_packet = st.first_reliable_packet ∧
      (st.check_timeout now).duplicates = st.duplicates ∧
      (st.check_timeout now).acks_sent = st.acks_sent := by
  have hM : (0:Nat) < MAX_SEQ_NUM := MAX_pos
  simp only [ServerState.check_timeout, hw]
  rw [if_pos ⟨hwf, hel⟩]
  set st1 : ServerState := { st with
    waiting_start_time := some t0
    timeouts := st.timeouts + 1
    expected_sequence := (st.expected_sequence + 1) % MAX_SEQ_NUM
    advances := st.advances + 1 } with hst1
  obtain ⟨r, pays, buf, hrec, hbool, hplen, hblen, hlook, hmono, hin⟩ :=
    drain_loop_spec st1 (by simp [hst1]; exact Nat.mod_lt _ hM)
  obtain ⟨d1, d2, d3, d4, d5, d6, d7, d8, d9, d10, d11, d12, d13⟩ :=
    drain_in_order_fields st1 now
  have harith : ∀ i : Nat, (st1.expected_sequence + i) % MAX_SEQ_NUM =
      (st.expected_sequence + 1 + i) % MAX_SEQ_NUM := by
    intro i
    simp only [hst1]
    rw [Nat.mod_add_mod]
  have hbuf2 : (st1.drain_in_order now).reliable_buffer = buf := by rw [d1, hrec]
  have hexp2 : (st1.drain_in_order now).expected_sequence =
      (st.expected_sequence + 1 + r) % MAX_SEQ_NUM := by
    rw [d2, hrec]
    exact harith r
  have hkey2 : hasKey (st1.drain_in_order now).expected_sequence
      (st1.drain_in_order now).reliable_buffer = false := by
    rw [hbuf2, hexp2, ← harith r, hasKey_false_iff_lookupKey_none]
    exact hlook
  rw [if_neg (by rw [hkey2]; exact Bool.false_ne_true)]
  obtain ⟨w1, w2, w3, w4, w5, w6, w7, w8, w9, w10, w11, w12, w13⟩ :=
    start_waiting_fields (st1.drain_in_order now)
      (st1.drain_in_order now).expected_sequence now
  refine ⟨r, pays, buf, ?_, ?_, ?_, ?_, ?_, ?_, hplen, ?_, ?_, ?_, ?_, ?_, ?_, ?_, ?_⟩
  · rw [w9, d9, hrec]
  · rw [w2, hexp2]
  · rw [w4, d4, hrec]
    simp only [hst1]
    congr 1
    exact List.map_congr_left fun i _ => harith i
  · rw [w5, d5, hrec]
  · rw [w6, d6, hrec]
  · rw [w3, d3, hrec]
  · intro i hi
    have := hin i hi
    rw [harith i] at this
    simpa [hst1] using this
  · rw [w1, hbuf2]
  · rw [← harith r, hasKey_false_iff_lookupKey_none]
    exact hlook
  · intro k hk
    have := hmono k hk
    simpa [hst1] using this
  · rw [w7, d7, hrec]
  · rw [w8, d8, hrec]
  · rw [w10, d10, hrec]
  · rw [w11, d11, hrec]

/-- Reachable-state invariant of the receiver: the cursor tracks
`base + advances` modulo the sequence space, the ghost advance log is
strictly increasing and bounded by `advances`, the delivery log is its
image under the cursor map, the cursor's slot is never buffered, and a
server that has not yet seen a reliable packet is pristine. -/
def SInv (st : ServerState) : Prop :=
  st.expected_sequence < MAX_SEQ_NUM ∧
  st.base < MAX_SEQ_NUM ∧
  st.expected_sequence = (st.base + st.advances) % MAX_SEQ_NUM ∧
  List.Sorted (· < ·) st.advance_log ∧
  (∀ x ∈ st.advance_log, x < st.advances) ∧
  st.delivery_log = st.advance_log.map (fun n => (st.base + n) % MAX_SEQ_NUM) ∧
  hasKey st.expected_sequence st.reliable_buffer = false ∧
  (st.first_reliable_packet = true →
    st.reliable_buffer = [] ∧ st.advance_log = [] ∧ st.advances = 0 ∧
    st.waiting_start_time = none)

theorem SInv_init (timeout : ℚ) : SInv (init_server timeout) := by
  refine ⟨by norm_num [init_server, MAX_SEQ_NUM], by norm_num [init_server, MAX_SEQ_NUM],
    by norm_num [init_server], by simp [init_server], by simp [init_server],
    by simp [init_server], by simp [init_server, hasKey], fun _ => ⟨rfl, rfl, rfl, rfl⟩⟩

/-- `SInv` depends only on eight fields. -/
theorem SInv_congr (st st' : ServerState)
    (he : st'.expected_sequence = st.expected_sequence)
    (hb : st'.base = st.base) (ha : st'.advances = st.advances)
    (hal : st'.advance_log = st.advance_log)
    (hdl : st'.delivery_log = st.delivery_log)
    (hbuf : st'.reliable_buffer = st.reliable_buffer)
    (hf : st'.first_reliable_packet = st.first_reliable_packet)
    (hw : st'.waiting_start_time = st.waiting_start_time)
    (h : SInv st) : SInv st' := by
  obtain ⟨h1, h2, h3, h4, h5, h6, h7, h8⟩ := h
  exact ⟨by rw [he]; exact h1, by rw [hb]; exact h2,
    by rw [he, hb, ha]; exact h3, by rw [hal]; exact h4,
    by rw [hal, ha]; exact h5, by rw [hdl, hal, hb]; exact h6,
    by rw [he, hbuf]; exact h7,
    by rw [hf, hbuf, hal, ha, hw]; exact h8⟩

theorem check_timeout_SInv (st : ServerState) (now : ℚ) (h : SInv st) :
    SInv (st.check_timeout now) := by
  match hw : st.waiting_start_time with
  | none =>
    have hres : st.check_timeout now = st := by
      rw [ServerState.check_timeout, hw]
    rw [hres]
    exact h
  | some t0 =>
    by_cases hc : st.waiting_for_seq = some st.expected_sequence ∧
      st.timeout ≤ now - t0
    · obtain ⟨h1, h2, h3, h4, h5, h6, h7, h8⟩ := h
      obtain ⟨r, pays, buf, e1, e2, e3, e4, e5, e6, e7, e8, e9, e10, e11,
        e12, e13, e14, e15⟩ := check_timeout_fire_spec st now t0 hw hc.1 hc.2
      refine ⟨?_, ?_, ?_, ?_, ?_, ?_, ?_, ?_⟩
      · rw [e2]; exact Nat.mod_lt _ MAX_pos
      · rw [e12]; exact h2
      · rw [e2, e12, e5, h3]
        simp only [MAX_SEQ_NUM] at *
        omega
      · rw [e4]
        refine List.pairwise_append.mpr ⟨h4, ?_, ?_⟩
        · refine List.Pairwise.map _ ?_ (List.pairwise_lt_range r)
          intro a b hab
          omega
        · intro x hx y hy
          simp only [List.mem_map, List.mem_range] at hy
          obtain ⟨i, _, rfl⟩ := hy
          have := h5 x hx
          omega
      · rw [e4, e5]
        intro x hx
        simp only [List.mem_append, List.mem_map, List.mem_range] at hx
        rcases hx with hx | ⟨i, hi, rfl⟩
        · have := h5 x hx
          omega
        · omega
      · rw [e3, e4, e12, List.map_append, h6, List.map_map]
        congr 1
        refine List.map_congr_left fun i _ => ?_
        simp only [Function.comp_apply]
        rw [h3]
        simp only [MAX_SEQ_NUM] at *
        omega
      · rw [e9, e2]
        exact e10
      · intro hf
        rw [e13] at hf
        exact absurd hw (by rw [(h8 hf).2.2.2]; simp)
    · have hres : st.check_timeout now = st := by
        simp only [ServerState.check_timeout, hw]
        rw [if_neg hc]
      rw [hres]
      exact h

theorem hasKey_append_single {α : Type} (k j : Nat) (l : List (Nat × α)) (v : α) :
    hasKey k (l ++ [(j, v)]) = (hasKey k l || decide (j = k)) := by
  induction l with
  | nil => simp [hasKey]
  | cons e rest ih =>
    obtain ⟨k', v'⟩ := e
    simp [hasKey, ih, Bool.or_assoc]

/-- `_send_ack` touches only the ghost ACK log. -/
theorem send_ack_fields (st : ServerState) (s : Nat) :
    (st.send_ack s).reliable_buffer = st.reliable_buffer ∧
      (st.send_ack s).expected_sequence = st.expected_sequence ∧
      (st.send_ack s).output_buffer = st.output_buffer ∧
      (st.send_ack s).delivery_log = st.delivery_log ∧
      (st.send_ack s).advance_log = st.advance_log ∧
      (st.send_ack s).advances = st.advances ∧
      (st.send_ack s).base = st.base ∧
      (st.send_ack s).first_reliable_packet = st.first_reliable_packet ∧
      (st.send_ack s).waiting_start_time = st.waiting_start_time ∧
      (st.send_ack s).waiting_for_seq = st.waiting_for_seq ∧
      (st.send_ack s).duplicates = st.duplicates ∧
      (st.send_ack s).timeouts = st.timeouts := by
  rw [ServerState.send_ack]
  split <;> exact ⟨rfl, rfl, rfl, rfl, rfl, rfl, rfl, rfl, rfl, rfl, rfl, rfl⟩

/-- A drain on a state whose cursor slot is not buffered is a no-op. -/
theorem drain_in_order_noop (st : ServerState) (now : ℚ)
    (hkey : hasKey st.expected_sequence st.reliable_buffer = false) :
    st.drain_in_order now = st := by
  have hl := (hasKey_false_iff_lookupKey_none _ _).mp hkey
  rw [ServerState.drain_in_order, ServerState.drain_loop]
  simp only [drain_go, hl]
  simp

/-- Draining preserves the invariant (and re-establishes the
not-buffered-cursor condition by itself). -/
theorem drain_in_order_SInv (X : ServerState) (now : ℚ)
    (he : X.expected_sequence < MAX_SEQ_NUM) (hb : X.base < MAX_SEQ_NUM)
    (heq : X.expected_sequence = (X.base + X.advances) % MAX_SEQ_NUM)
    (hsor : List.Sorted (· < ·) X.advance_log)
    (hlt : ∀ x ∈ X.advance_log, x < X.advances)
    (hdl : X.delivery_log = X.advance_log.map (fun n => (X.base + n) % MAX_SEQ_NUM))
    (hf : X.first_reliable_packet = false) :
    SInv (X.drain_in_order now) := by
  obtain ⟨r, pays, buf, hrec, hbool, hplen, hblen, hlook, hmono, hin⟩ :=
    drain_loop_spec X he
  obtain ⟨d1, d2, d3, d4, d5, d6, d7, d8, d9, d10, d11, d12, d13⟩ :=
    drain_in_order_fields X now
  refine ⟨?_, ?_, ?_, ?_, ?_, ?_, ?_, ?_⟩
  · rw [d2, hrec]
    exact Nat.mod_lt _ MAX_pos
  · rw [d7, hrec]
    exact hb
  · rw [d2, d7, d6, hrec]
    simp only
    rw [heq]
    simp only [MAX_SEQ_NUM] at *
    omega
  · rw [d5, hrec]
    simp only
    refine List.pairwise_append.mpr ⟨hsor, ?_, ?_⟩
    · refine List.Pairwise.map _ ?_ (List.pairwise_lt_range r)
      intro a b hab
      omega
    · intro x hx y hy
      simp only [List.mem_map, List.mem_range] at hy
      obtain ⟨i, _, rfl⟩ := hy
      have := hlt x hx
      omega
  · rw [d5, d6, hrec]
    simp only
    intro x hx
    simp only [List.mem_append, List.mem_map, List.mem_range] at hx
    rcases hx with hx | ⟨i, hi, rfl⟩
    · have := hlt x hx
      omega
    · omega
  · rw [d4, d5, d7, hrec]
    simp only
    rw [List.map_append, hdl, List.map_map]
    congr 1
    refine List.map_congr_left fun i _ => ?_
    simp only [Function.comp_apply]
    rw [heq]
    simp only [MAX_SEQ_NUM] at *
    omega
  · rw [d1, d2, hrec]
    simp only
    rw [hasKey_false_iff_lookupKey_none]
    exact hlook
  · intro hcontra
    rw [d8, hrec] at hcontra
    simp only at hcontra
    rw [hf] at hcontra
    cases hcontra


/-- `record_reliable_metrics` leaves every invariant-relevant field
unchanged. -/
theorem record_reliable_metrics_fields (st : ServerState) (pkt : GameNetPacket)
    (latency : ℚ) :
    (st.record_reliable_metrics pkt latency).expected_sequence = st.expected_sequence ∧
      (st.record_reliable_metrics pkt latency).base = st.base ∧
      (st.record_reliable_metrics pkt latency).advances = st.advances ∧
      (st.record_reliable_metrics pkt latency).advance_log = st.advance_log ∧
      (st.record_reliable_metrics pkt latency).delivery_log = st.delivery_log ∧
      (st.record_reliable_metrics pkt latency).reliable_buffer = st.reliable_buffer ∧
      (st.record_reliable_metrics pkt latency).first_reliable_packet =
        st.first_reliable_packet ∧
      (st.record_reliable_metrics pkt latency).waiting_start_time =
        st.waiting_start_time ∧
      (st.record_reliable_metrics pkt latency).waiting_for_seq = st.waiting_for_seq ∧
      (st.record_reliable_metrics pkt latency).output_buffer = st.output_buffer ∧
      (st.record_reliable_metrics pkt latency).duplicates = st.duplicates ∧
      (st.record_reliable_metrics pkt latency).acks_sent = st.acks_sent ∧
      (st.record_reliable_metrics pkt latency).client_addr = st.client_addr := by
  rw [ServerState.record_reliable_metrics]
  split <;> exact ⟨rfl, rfl, rfl, rfl, rfl, rfl, rfl, rfl, rfl, rfl, rfl, rfl, rfl⟩

theorem record_reliable_metrics_SInv (st : ServerState) (pkt : GameNetPacket)
    (latency : ℚ) (h : SInv st) : SInv (st.record_reliable_metrics pkt latency) := by
  obtain ⟨m1, m2, m3, m4, m5, m6, m7, m8, _⟩ := record_reliable_metrics_fields st pkt latency
  exact SInv_congr st _ m1 m2 m3 m4 m5 m6 m7 m8 h

/-- After `init_first_packet` the `first_reliable_packet` flag is
down, and the invariant holds (using that a pristine server has an
empty buffer and empty logs). -/
theorem init_first_packet_SInv (st : ServerState) (pkt : GameNetPacket) (now : ℚ)
    (h : SInv st) (hseq : pkt.seq_num < MAX_SEQ_NUM) :
    SInv (st.init_first_packet pkt now) ∧
      (st.init_first_packet pkt now).first_reliable_packet = false := by
  obtain ⟨h1, h2, h3, h4, h5, h6, h7, h8⟩ := h
  rw [ServerState.init_first_packet]
  by_cases hf : st.first_reliable_packet = true
  · rw [if_pos hf]
    obtain ⟨hb0, hal0, hadv0, _⟩ := h8 hf
    obtain ⟨w1, w2, w3, w4, w5, w6, w7, w8, w9, w10, w11, w12, w13⟩ :=
      start_waiting_fields { st with
        expected_sequence := pkt.seq_num
        first_reliable_packet := false
        base := pkt.seq_num
        advances := 0 } pkt.seq_num now
    refine ⟨⟨?_, ?_, ?_, ?_, ?_, ?_, ?_, ?_⟩, by rw [w8]⟩
    · rw [w2]; exact hseq
    · rw [w7]; exact hseq
    · rw [w2, w7, w6, Nat.add_zero, Nat.mod_eq_of_lt hseq]
    · rw [w5]
      simp only
      rw [hal0]
      exact List.sorted_nil
    · rw [w5]
      simp only
      rw [hal0]
      intro x hx
      cases hx
    · rw [w4, w5, w7]
      simp only
      rw [h6, hal0]
      rfl
    · rw [w1, w2]
      simp only
      rw [hb0]
      rfl
    · intro hc
      rw [w8] at hc
      cases hc
  · rw [if_neg hf]
    exact ⟨⟨h1, h2, h3, h4, h5, h6, h7, h8⟩,
      by revert hf; cases st.first_reliable_packet <;> simp⟩

theorem classify_reliable_delivered_eq (st : ServerState) (pkt : GameNetPacket)
    (now : ℚ) (hdel : st.has_been_delivered pkt.seq_num = true) :
    st.classify_reliable pkt now =
      ({ st with duplicates := st.duplicates + 1 }).send_ack pkt.seq_num := by
  rw [ServerState.classify_reliable, if_pos hdel]

theorem classify_reliable_out_eq (st : ServerState) (pkt : GameNetPacket)
    (now : ℚ) (hdel : st.has_been_delivered pkt.seq_num = false)
    (hwin : st.is_within_receive_window pkt.seq_num = false) :
    st.classify_reliable pkt now = st := by
  rw [ServerState.classify_reliable,
    if_neg (by rw [hdel]; exact Bool.false_ne_true),
    if_neg (by rw [hwin]; exact Bool.false_ne_true)]

theorem classify_reliable_buffered_dup_eq (st : ServerState) (pkt : GameNetPacket)
    (now : ℚ) (hdel : st.has_been_delivered pkt.seq_num = false)
    (hwin : st.is_within_receive_window pkt.seq_num = true)
    (hkey : hasKey pkt.seq_num st.reliable_buffer = true) :
    st.classify_reliable pkt now =
      (({ st with duplicates := st.duplicates + 1 }).send_ack
        pkt.seq_num).drain_in_order now := by
  rw [ServerState.classify_reliable,
    if_neg (by rw [hdel]; exact Bool.false_ne_true), if_pos hwin]
  dsimp only
  rw [if_neg (by simp [hkey])]

theorem classify_reliable_new_inorder_eq (st : ServerState) (pkt : GameNetPacket)
    (now : ℚ) (hdel : st.has_been_delivered pkt.seq_num = false)
    (hwin : st.is_within_receive_window pkt.seq_num = true)
    (hkey : hasKey pkt.seq_num st.reliable_buffer = false)
    (hooo : pkt.seq_num = st.expected_sequence) :
    st.classify_reliable pkt now =
      (({ st with
        reliable_buffer := st.reliable_buffer ++ [(pkt.seq_num, pkt)]
        total_reliable_success := st.total_reliable_success + 1 }).send_ack
        pkt.seq_num).drain_in_order now := by
  rw [ServerState.classify_reliable,
    if_neg (by rw [hdel]; exact Bool.false_ne_true), if_pos hwin]
  rw [if_pos hkey]
  dsimp only
  rw [if_neg (by simpa using hooo)]

theorem classify_reliable_new_ooo_eq (st : ServerState) (pkt : GameNetPacket)
    (now : ℚ) (hdel : st.has_been_delivered pkt.seq_num = false)
    (hwin : st.is_within_receive_window pkt.seq_num = true)
    (hkey : hasKey pkt.seq_num st.reliable_buffer = false)
    (hooo : pkt.seq_num ≠ st.expected_sequence) :
    st.classify_reliable pkt now =
      (({ st with
        reliable_buffer := st.reliable_buffer ++ [(pkt.seq_num, pkt)]
        out_of_order := st.out_of_order + 1
        total_reliable_success := st.total_reliable_success + 1 }).send_ack
        pkt.seq_num).drain_in_order now := by
  rw [ServerState.classify_reliable,
    if_neg (by rw [hdel]; exact Bool.false_ne_true), if_pos hwin]
  rw [if_pos hkey]
  dsimp only
  rw [if_pos (by simpa using hooo)]

theorem bool_not_true {b : Bool} (h : ¬ b = true) : b = false := by
  revert h; cases b <;> simp

theorem classify_reliable_SInv (X : ServerState) (pkt : GameNetPacket) (now : ℚ)
    (h : SInv X) (hf : X.first_reliable_packet = false) :
    SInv (X.classify_reliable pkt now) := by
  obtain ⟨h1, h2, h3, h4, h5, h6, h7, h8⟩ := h
  by_cases hdel : X.has_been_delivered pkt.seq_num = true
  · rw [classify_reliable_delivered_eq X pkt now hdel]
    obtain ⟨a1, a2, a3, a4, a5, a6, a7, a8, a9, a10, a11, a12⟩ :=
      send_ack_fields { X with duplicates := X.duplicates + 1 } pkt.seq_num
    exact SInv_congr X _ (by rw [a2]) (by rw [a7]) (by rw [a6]) (by rw [a5])
      (by rw [a4]) (by rw [a1]) (by rw [a8]) (by rw [a9])
      ⟨h1, h2, h3, h4, h5, h6, h7, h8⟩
  · have hdel' := bool_not_true hdel
    by_cases hwin : X.is_within_receive_window pkt.seq_num = true
    · by_cases hkey : hasKey pkt.seq_num X.reliable_buffer = true
      · rw [classify_reliable_buffered_dup_eq X pkt now hdel' hwin hkey]
        obtain ⟨a1, a2, a3, a4, a5, a6, a7, a8, a9, a10, a11, a12⟩ :=
          send_ack_fields { X with duplicates := X.duplicates + 1 } pkt.seq_num
        rw [drain_in_order_noop _ now (by rw [a1, a2]; exact h7)]
        exact SInv_congr X _ (by rw [a2]) (by rw [a7]) (by rw [a6]) (by rw [a5])
          (by rw [a4]) (by rw [a1]) (by rw [a8]) (by rw [a9])
          ⟨h1, h2, h3, h4, h5, h6, h7, h8⟩
      · have hkey' := bool_not_true hkey
        by_cases hooo : pkt.seq_num = X.expected_sequence
        · rw [classify_reliable_new_inorder_eq X pkt now hdel' hwin hkey' hooo]
          obtain ⟨a1, a2, a3, a4, a5, a6, a7, a8, a9, a10, a11, a12⟩ :=
            send_ack_fields { X with
              reliable_buffer := X.reliable_buffer ++ [(pkt.seq_num, pkt)]
              total_reliable_success := X.total_reliable_success + 1 } pkt.seq_num
          exact drain_in_order_SInv _ now (by rw [a2]; exact h1)
            (by rw [a7]; exact h2) (by rw [a2, a7, a6]; exact h3)
            (by rw [a5]; exact h4) (by rw [a5, a6]; exact h5)
            (by rw [a4, a5, a7]; exact h6) (by rw [a8]; exact hf)
        · rw [classify_reliable_new_ooo_eq X pkt now hdel' hwin hkey' hooo]
          obtain ⟨a1, a2, a3, a4, a5, a6, a7, a8, a9, a10, a11, a12⟩ :=
            send_ack_fields { X with
              reliable_buffer := X.reliable_buffer ++ [(pkt.seq_num, pkt)]
              out_of_order := X.out_of_order + 1
              total_reliable_success := X.total_reliable_success + 1 } pkt.seq_num
          exact drain_in_order_SInv _ now (by rw [a2]; exact h1)
            (by rw [a7]; exact h2) (by rw [a2, a7, a6]; exact h3)
            (by rw [a5]; exact h4) (by rw [a5, a6]; exact h5)
            (by rw [a4, a5, a7]; exact h6) (by rw [a8]; exact hf)
    · rw [classify_reliable_out_eq X pkt now hdel' (bool_not_true hwin)]
      exact ⟨h1, h2, h3, h4, h5, h6, h7, h8⟩

theorem process_reliable_SInv (st : ServerState) (pkt : GameNetPacket)
    (latency now : ℚ) (h : SInv st) (hseq : pkt.seq_num < MAX_SEQ_NUM) :
    SInv (st.process_reliable pkt latency now) := by
  rw [ServerState.process_reliable]
  obtain ⟨hinv2, hf2⟩ := init_first_packet_SInv (st.record_reliable_metrics pkt latency)
    pkt now (record_reliable_metrics_SInv st pkt latency h) hseq
  exact classify_reliable_SInv _ pkt now hinv2 hf2

/-- `SInv` is preserved by a full `_process_socket` iteration, and the
remaining inbox is a sub-collection of the previous one. -/
theorem process_socket_SInv (jp : List Nat → Option (Nat × Nat)) (st : ServerState)
    (inbox : List (GameNetPacket × Nat)) (now : ℚ) (h : SInv st)
    (hseq : ∀ d ∈ inbox, d.1.seq_num < MAX_SEQ_NUM) :
    SInv (ServerState.process_socket jp st inbox now).1 ∧
      ∀ d ∈ (ServerState.process_socket jp st inbox now).2.1, d ∈ inbox := by
  rw [ServerState.process_socket.eq_def]
  set s0 : ServerState := if st.start_time = none then
    { st with start_time := some now } else st with hs0
  have h0 : SInv s0 := by
    refine SInv_congr st s0 ?_ ?_ ?_ ?_ ?_ ?_ ?_ ?_ h <;> (rw [hs0]; split <;> rfl)
  have h1 : SInv (s0.check_timeout now) := check_timeout_SInv s0 now h0
  rcases hout : (s0.check_timeout now).output_buffer with _ | ⟨entry, rest⟩
  · simp only [hout]
    rcases inbox with _ | ⟨⟨pkt, addr⟩, inboxRest⟩
    · exact ⟨h1, by simp⟩
    · simp only
      set s2 : ServerState := { s0.check_timeout now with
        output_buffer := ([] : List (List Nat × Nat))
        client_addr := some addr } with hs2
      have h2 : SInv s2 :=
        SInv_congr (s0.check_timeout now) s2 rfl rfl rfl rfl rfl rfl rfl rfl h1
      by_cases hch0 : pkt.channel_type = 0
      · rw [if_pos hch0]
        refine ⟨?_, fun d hd => List.mem_cons_of_mem _ hd⟩
        split <;>
          exact SInv_congr s2 _ rfl rfl rfl rfl rfl rfl rfl rfl h2
      · rw [if_neg hch0]
        by_cases hch2 : pkt.channel_type = 2
        · rw [if_pos hch2]
          refine ⟨?_, fun d hd => List.mem_cons_of_mem _ hd⟩
          have h3 : SInv (s2.process_session_summary (jp pkt.payload)) := by
            rw [ServerState.process_session_summary.eq_def]
            match jp pkt.payload with
            | some (r, u) => exact SInv_congr s2 _ rfl rfl rfl rfl rfl rfl rfl rfl h2
            | none => exact h2
          rw [ServerState.send_session_ack]
          split <;>
            exact SInv_congr _ _ rfl rfl rfl rfl rfl rfl rfl rfl h3
        · rw [if_neg hch2]
          have h3 : SInv (s2.process_reliable pkt (calculate_latency pkt now) now) :=
            process_reliable_SInv s2 pkt _ now h2
              (hseq (pkt, addr) (by simp))
          rcases hout2 : (s2.process_reliable pkt (calculate_latency pkt now)
              now).output_buffer with _ | ⟨entry2, rest2⟩
          · simp only [hout2]
            exact ⟨h3, fun d hd => List.mem_cons_of_mem _ hd⟩
          · simp only [hout2]
            exact ⟨SInv_congr _ _ rfl rfl rfl rfl rfl rfl rfl rfl h3,
              fun d hd => List.mem_cons_of_mem _ hd⟩
  · simp only [hout]
    exact ⟨SInv_congr _ _ rfl rfl rfl rfl rfl rfl rfl rfl h1, fun d hd => hd⟩

/-- `SInv` holds after any `_receive_loop` run. -/
theorem server_run_SInv (jp : List Nat → Option (Nat × Nat)) (st : ServerState)
    (inbox : List (GameNetPacket × Nat)) (ticks : List ℚ) (h : SInv st)
    (hseq : ∀ d ∈ inbox, d.1.seq_num < MAX_SEQ_NUM) :
    SInv (server_run jp st inbox ticks).1 := by
  induction ticks generalizing st inbox with
  | nil => exact h
  | cons now rest ih =>
    rw [server_run, List.foldl_cons]
    obtain ⟨hA, hB⟩ := process_socket_SInv jp st inbox now h hseq
    exact ih _ _ hA fun d hd => hseq d (hB d hd)

theorem mod_eq_forces_wrap (b x y : Nat) (hxy : x < y)
    (hmod : (b + x) % MAX_SEQ_NUM = (b + y) % MAX_SEQ_NUM) :
    x + MAX_SEQ_NUM ≤ y := by
  simp only [MAX_SEQ_NUM] at *
  omega

theorem nodup_map_mod_of_bounded (b A : Nat) (ns : List Nat)
    (hsor : List.Sorted (· < ·) ns) (hbound : ∀ x ∈ ns, x < A)
    (hA : A ≤ MAX_SEQ_NUM) :
    (ns.map (fun n => (b + n) % MAX_SEQ_NUM)).Nodup := by
  rw [List.Nodup, List.pairwise_map]
  refine hsor.imp_of_mem ?_
  intro x y hx hy hlt hc
  have hwrap := mod_eq_forces_wrap b x y hlt hc
  have := hbound y hy
  omega

/-- C3 (amended): over any receiver run, the sequence of reliable
sequence numbers appended to the output buffer is exactly the image of
a strictly increasing list of cursor-advance counts under
`n ↦ (base + n) % MAX_SEQ_NUM`: drains and gap-skips append packets in
cursor order and advance `expected_sequence` past each appended packet
(the cursor always equals `base + advances mod 2^16`, with every
logged advance count below the total).  The same sequence number can
be appended twice, but only when at least `2^16` cursor advances —
a full sequence-number wrap — separate the two appends. -/
theorem reliable_delivery_cursor_monotone (jp : List Nat → Option (Nat × Nat))
    (timeout : ℚ) (inbox : List (GameNetPacket × Nat)) (ticks : List ℚ)
    (hseq : ∀ d ∈ inbox, d.1.seq_num < MAX_SEQ_NUM) :
    ∃ ns : List Nat,
      List.Sorted (· < ·) ns ∧
      (server_run jp (init_server timeout) inbox ticks).1.delivery_log =
        ns.map (fun n =>
          ((server_run jp (init_server timeout) inbox ticks).1.base + n) % MAX_SEQ_NUM) ∧
      (∀ x ∈ ns, x < (server_run jp (init_server timeout) inbox ticks).1.advances) ∧
      (server_run jp (init_server timeout) inbox ticks).1.expected_sequence =
        ((server_run jp (init_server timeout) inbox ticks).1.base +
          (server_run jp (init_server timeout) inbox ticks).1.advances) % MAX_SEQ_NUM ∧
      (∀ i j, i < j → j < ns.length →
        ((server_run jp (init_server timeout) inbox ticks).1.base + ns.getD i 0)
            % MAX_SEQ_NUM =
          ((server_run jp (init_server timeout) inbox ticks).1.base + ns.getD j 0)
            % MAX_SEQ_NUM →
        ns.getD i 0 + MAX_SEQ_NUM ≤ ns.getD j 0) := by
  obtain ⟨h1, h2, h3, h4, h5, h6, h7, h8⟩ :=
    server_run_SInv jp (init_server timeout) inbox ticks (SInv_init timeout) hseq
  refine ⟨(server_run jp (init_server timeout) inbox ticks).1.advance_log,
    h4, h6, h5, h3, ?_⟩
  intro i j hij hj hmod
  have hgi : (server_run jp (init_server timeout) inbox ticks).1.advance_log.getD i 0
      < (server_run jp (init_server timeout) inbox ticks).1.advance_log.getD j 0 := by
    rw [List.getD_eq_getElem _ _ (by omega), List.getD_eq_getElem _ _ hj]
    exact List.Sorted.get_strictMono h4 (by exact hij)
  exact mod_eq_forces_wrap _ _ _ hgi hmod

/-- Witness for `reliable_delivery_cursor_monotone` on a concrete
two-packet run. -/
theorem reliable_delivery_cursor_monotone_witness :
    (∀ d ∈ ([(⟨1, 7, 0, 0, 0, [1]⟩, 0), (⟨1, 8, 0, 0, 0, [2]⟩, 0)] :
        List (GameNetPacket × Nat)), d.1.seq_num < MAX_SEQ_NUM) ∧
      ∃ ns : List Nat,
        List.Sorted (· < ·) ns ∧
        (server_run (fun _ => none) (init_server TIMEOUT)
            [(⟨1, 7, 0, 0, 0, [1]⟩, 0), (⟨1, 8, 0, 0, 0, [2]⟩, 0)] [0, 0]).1.delivery_log =
          ns.map (fun n =>
            ((server_run (fun _ => none) (init_server TIMEOUT)
              [(⟨1, 7, 0, 0, 0, [1]⟩, 0), (⟨1, 8, 0, 0, 0, [2]⟩, 0)] [0, 0]).1.base + n)
              % MAX_SEQ_NUM) ∧
        (∀ x ∈ ns, x < (server_run (fun _ => none) (init_server TIMEOUT)
            [(⟨1, 7, 0, 0, 0, [1]⟩, 0), (⟨1, 8, 0, 0, 0, [2]⟩, 0)] [0, 0]).1.advances) ∧
        (server_run (fun _ => none) (init_server TIMEOUT)
            [(⟨1, 7, 0, 0, 0, [1]⟩, 0), (⟨1, 8, 0, 0, 0, [2]⟩, 0)] [0, 0]).1.expected_sequence =
          ((server_run (fun _ => none) (init_server TIMEOUT)
              [(⟨1, 7, 0, 0, 0, [1]⟩, 0), (⟨1, 8, 0, 0, 0, [2]⟩, 0)] [0, 0]).1.base +
            (server_run (fun _ => none) (init_server TIMEOUT)
              [(⟨1, 7, 0, 0, 0, [1]⟩, 0), (⟨1, 8, 0, 0, 0, [2]⟩, 0)] [0, 0]).1.advances)
            % MAX_SEQ_NUM ∧
        (∀ i j, i < j → j < ns.length →
          ((server_run (fun _ => none) (init_server TIMEOUT)
              [(⟨1, 7, 0, 0, 0, [1]⟩, 0), (⟨1, 8, 0, 0, 0, [2]⟩, 0)] [0, 0]).1.base +
            ns.getD i 0) % MAX_SEQ_NUM =
            ((server_run (fun _ => none) (init_server TIMEOUT)
              [(⟨1, 7, 0, 0, 0, [1]⟩, 0), (⟨1, 8, 0, 0, 0, [2]⟩, 0)] [0, 0]).1.base +
              ns.getD j 0) % MAX_SEQ_NUM →
          ns.getD i 0 + MAX_SEQ_NUM ≤ ns.getD j 0) := by
  have hs : ∀ d ∈ ([(⟨1, 7, 0, 0, 0, [1]⟩, 0), (⟨1, 8, 0, 0, 0, [2]⟩, 0)] :
      List (GameNetPacket × Nat)), d.1.seq_num < MAX_SEQ_NUM := by
    intro d hd
    simp only [List.mem_cons, List.not_mem_nil, or_false] at hd
    rcases hd with rfl | rfl <;> norm_num [MAX_SEQ_NUM]
  exact ⟨hs, reliable_delivery_cursor_monotone (fun _ => none) TIMEOUT
    [(⟨1, 7, 0, 0, 0, [1]⟩, 0), (⟨1, 8, 0, 0, 0, [2]⟩, 0)] [0, 0] hs⟩

theorem has_been_delivered_congr (st st' : ServerState)
    (h : st'.expected_sequence = st.expected_sequence) (s : Nat) :
    st'.has_been_delivered s = st.has_been_delivered s := by
  simp [ServerState.has_been_delivered, h]

theorem is_within_receive_window_congr (st st' : ServerState)
    (he : st'.expected_sequence = st.expected_sequence)
    (hw : st'.window_size = st.window_size) (s : Nat) :
    st'.is_within_receive_window s = st.is_within_receive_window s := by
  simp [ServerState.is_within_receive_window, he, hw]

/-- C2 (amended): (1) a reliable arrival classified as
already-delivered (behind the window) or already-buffered (within the
window) is counted as a duplicate, re-ACKed, and leaves the reliable
buffer, the delivery cursor, the output buffer, and the delivery log
unchanged; (2) consequently, over any run in which the delivery cursor
advances at most `2^16` times (no sequence-number wrap), each sequence
number is appended to the output buffer at most once. -/
theorem duplicate_arrival_noop_and_no_dup_delivery :
    (∀ (st : ServerState) (pkt : GameNetPacket) (latency now : ℚ),
      SInv st → st.first_reliable_packet = false → st.client_addr ≠ none →
      (st.has_been_delivered pkt.seq_num = true ∨
        (st.is_within_receive_window pkt.seq_num = true ∧
          hasKey pkt.seq_num st.reliable_buffer = true)) →
      (st.process_reliable pkt latency now).reliable_buffer = st.reliable_buffer ∧
        (st.process_reliable pkt latency now).expected_sequence =
          st.expected_sequence ∧
        (st.process_reliable pkt latency now).output_buffer = st.output_buffer ∧
        (st.process_reliable pkt latency now).delivery_log = st.delivery_log ∧
        (st.process_reliable pkt latency now).duplicates = st.duplicates + 1 ∧
        (st.process_reliable pkt latency now).acks_sent =
          st.acks_sent ++ [pkt.seq_num]) ∧
    (∀ (jp : List Nat → Option (Nat × Nat)) (timeout : ℚ)
      (inbox : List (GameNetPacket × Nat)) (ticks : List ℚ),
      (∀ d ∈ inbox, d.1.seq_num < MAX_SEQ_NUM) →
      (server_run jp (init_server timeout) inbox ticks).1.advances ≤ MAX_SEQ_NUM →
      (server_run jp (init_server timeout) inbox ticks).1.delivery_log.Nodup) := by
  constructor
  · intro st pkt latency now hinv hf haddr hdup
    obtain ⟨m1, m2, m3, m4, m5, m6, m7, m8, m9, m10, m11, m12, m13⟩ :=
      record_reliable_metrics_fields st pkt latency
    rw [ServerState.process_reliable]
    rw [show (st.record_reliable_metrics pkt latency).init_first_packet pkt now =
        st.record_reliable_metrics pkt latency by
      rw [ServerState.init_first_packet, if_neg]
      rw [m7, hf]
      exact Bool.false_ne_true]
    have haddr' : (st.record_reliable_metrics pkt latency).client_addr ≠ none := by
      rw [m13]; exact haddr
    by_cases hdel : st.has_been_delivered pkt.seq_num = true
    · rw [classify_reliable_delivered_eq _ pkt now
        (by rw [has_been_delivered_congr st _ m1]; exact hdel)]
      rw [ServerState.send_ack, if_pos haddr']
      exact ⟨m6, m1, m10, m5, by rw [m11], by rw [m12]⟩
    · rcases hdup with hdup | ⟨hwin, hkey⟩
      · exact absurd hdup hdel
      · rw [classify_reliable_buffered_dup_eq _ pkt now
          (by rw [has_been_delivered_congr st _ m1]; exact bool_not_true hdel)
          (by rw [is_within_receive_window_congr st _ m1 (by
              rw [ServerState.record_reliable_metrics]
              split <;> rfl)]; exact hwin)
          (by rw [m6]; exact hkey)]
        rw [drain_in_order_noop _ now (by
          rw [ServerState.send_ack]
          split <;> (dsimp only; rw [m1, m6]; exact hinv.2.2.2.2.2.2.1))]
        rw [ServerState.send_ack, if_pos haddr']
        exact ⟨m6, m1, m10, m5, by rw [m11], by rw [m12]⟩
  · intro jp timeout inbox ticks hseq hadv
    obtain ⟨h1, h2, h3, h4, h5, h6, h7, h8⟩ :=
      server_run_SInv jp (init_server timeout) inbox ticks (SInv_init timeout) hseq
    rw [h6]
    exact nodup_map_mod_of_bounded _ _ _ h4 h5 hadv

/-- A reachable-looking receiver state that has delivered sequence 10
and now expects 11. -/
def dup_cex_state : ServerState := { init_server TIMEOUT with
  first_reliable_packet := false
  expected_sequence := 11
  base := 10
  advances := 1
  advance_log := [0]
  delivery_log := [10]
  acks_sent := [10]
  client_addr := some 0 }

/-- Witness for `duplicate_arrival_noop_and_no_dup_delivery`: a
re-arrival of the already-delivered sequence 10 is a counted, re-ACKed
no-op, and the empty run trivially satisfies the no-wrap bound. -/
theorem duplicate_arrival_noop_and_no_dup_delivery_witness :
    (SInv dup_cex_state ∧ dup_cex_state.first_reliable_packet = false ∧
      dup_cex_state.client_addr ≠ none ∧
      dup_cex_state.has_been_delivered 10 = true ∧
      ((dup_cex_state.process_reliable ⟨1, 10, 0, 0, 0, []⟩ 0 0).reliable_buffer =
          dup_cex_state.reliable_buffer ∧
        (dup_cex_state.process_reliable ⟨1, 10, 0, 0, 0, []⟩ 0 0).expected_sequence =
          dup_cex_state.expected_sequence ∧
        (dup_cex_state.process_reliable ⟨1, 10, 0, 0, 0, []⟩ 0 0).output_buffer =
          dup_cex_state.output_buffer ∧
        (dup_cex_state.process_reliable ⟨1, 10, 0, 0, 0, []⟩ 0 0).delivery_log =
          dup_cex_state.delivery_log ∧
        (dup_cex_state.process_reliable ⟨1, 10, 0, 0, 0, []⟩ 0 0).duplicates =
          dup_cex_state.duplicates + 1 ∧
        (dup_cex_state.process_reliable ⟨1, 10, 0, 0, 0, []⟩ 0 0).acks_sent =
          dup_cex_state.acks_sent ++ [10])) ∧
      ((server_run (fun _ => none) (init_server TIMEOUT) [] []).1.advances ≤
          MAX_SEQ_NUM ∧
        (server_run (fun _ => none) (init_server TIMEOUT) [] []).1.delivery_log.Nodup) := by
  have hSI : SInv dup_cex_state := by
    refine ⟨by decide, by decide, by decide, ?_, ?_, by decide, by decide, ?_⟩
    · decide
    · decide
    · intro hc
      cases hc
  refine ⟨⟨hSI, rfl, by decide, by decide, ?_⟩, by decide,
    duplicate_arrival_noop_and_no_dup_delivery.2 (fun _ => none) TIMEOUT [] []
      (by simp) (by decide)⟩
  exact duplicate_arrival_noop_and_no_dup_delivery.1 dup_cex_state
    ⟨1, 10, 0, 0, 0, []⟩ 0 0 hSI rfl (by decide) (Or.inl (by decide))

/-- C5 (amended): when the gap wait on `expected_sequence = e` exceeds
the timeout threshold, the skip advances `e` by exactly one slot and
then moves every contiguous buffered successor starting at `e + 1` to
the output buffer, advancing `e` past them; the cursor jumps past a
buffered run only when the smallest buffered sequence is exactly
`e + 1` — a smallest buffered sequence lying further ahead stays
buffered and `e` simply becomes `e + 1`. -/
theorem gap_skip_advances_one_slot (st : ServerState) (now t0 : ℚ)
    (hw : st.waiting_start_time = some t0)
    (hwf : st.waiting_for_seq = some st.expected_sequence)
    (hel : st.timeout ≤ now - t0) :
    ∃ (r : Nat) (pays : List (List Nat × Nat)) (buf : List (Nat × GameNetPacket)),
      (st.check_timeout now).timeouts = st.timeouts + 1 ∧
      (st.check_timeout now).expected_sequence =
        (st.expected_sequence + 1 + r) % MAX_SEQ_NUM ∧
      (st.check_timeout now).delivery_log = st.delivery_log ++
        (List.range r).map (fun i => (st.expected_sequence + 1 + i) % MAX_SEQ_NUM) ∧
      (st.check_timeout now).output_buffer = st.output_buffer ++ pays ∧
      pays.length = r ∧
      (∀ i, i < r → hasKey ((st.expected_sequence + 1 + i) % MAX_SEQ_NUM)
        st.reliable_buffer = true) ∧
      (st.check_timeout now).reliable_buffer = buf ∧
      hasKey ((st.expected_sequence + 1 + r) % MAX_SEQ_NUM) buf = false ∧
      (∀ k, hasKey k buf = true → hasKey k st.reliable_buffer = true) := by
  obtain ⟨r, pays, buf, e1, e2, e3, e4, e5, e6, e7, e8, e9, e10, e11, _⟩ :=
    check_timeout_fire_spec st now t0 hw hwf hel
  exact ⟨r, pays, buf, e1, e2, e3, e6, e7, e8, e9, e10, e11⟩

/-- Witness for `gap_skip_advances_one_slot` at the concrete state
`skip_cex_state` (cursor 0, only sequence 3 buffered): the skip yields
`r = 0` — cursor 1, nothing moved, sequence 3 still buffered. -/
theorem gap_skip_advances_one_slot_witness :
    skip_cex_state.waiting_start_time = some 0 ∧
      skip_cex_state.waiting_for_seq = some skip_cex_state.expected_sequence ∧
      skip_cex_state.timeout ≤ 1 - 0 ∧
      ∃ (r : Nat) (pays : List (List Nat × Nat)) (buf : List (Nat × GameNetPacket)),
        (skip_cex_state.check_timeout 1).timeouts = skip_cex_state.timeouts + 1 ∧
        (skip_cex_state.check_timeout 1).expected_sequence =
          (skip_cex_state.expected_sequence + 1 + r) % MAX_SEQ_NUM ∧
        (skip_cex_state.check_timeout 1).delivery_log = skip_cex_state.delivery_log ++
          (List.range r).map
            (fun i => (skip_cex_state.expected_sequence + 1 + i) % MAX_SEQ_NUM) ∧
        (skip_cex_state.check_timeout 1).output_buffer =
          skip_cex_state.output_buffer ++ pays ∧
        pays.length = r ∧
        (∀ i, i < r → hasKey ((skip_cex_state.expected_sequence + 1 + i) % MAX_SEQ_NUM)
          skip_cex_state.reliable_buffer = true) ∧
        (skip_cex_state.check_timeout 1).reliable_buffer = buf ∧
        hasKey ((skip_cex_state.expected_sequence + 1 + r) % MAX_SEQ_NUM) buf = false ∧
        (∀ k, hasKey k buf = true → hasKey k skip_cex_state.reliable_buffer = true) :=
  ⟨rfl, rfl, by norm_num [skip_cex_state, init_server, TIMEOUT],
    gap_skip_advances_one_slot skip_cex_state 1 0 rfl rfl
      (by norm_num [skip_cex_state, init_server, TIMEOUT])⟩

def wrap_pkt (i : Nat) : GameNetPacket := ⟨1, i % MAX_SEQ_NUM, 0, 0, 0, []⟩

def wrap_state (k : Nat) : ServerState := { init_server TIMEOUT with
  first_reliable_packet := false
  expected_sequence := k % MAX_SEQ_NUM
  waiting_for_seq := some (k % MAX_SEQ_NUM)
  waiting_start_time := some 0
  client_addr := some 0
  packets_received_reliable := k
  total_reliable_success := k
  start_time := some 0
  acks_sent := (List.range k).map (fun i => i % MAX_SEQ_NUM)
  delivery_log := (List.range k).map (fun i => i % MAX_SEQ_NUM)
  advance_log := List.range k
  advances := k
  base := 0 }

set_option maxHeartbeats 4000000 in
theorem wrap_step (k : Nat) (rest : List (GameNetPacket × Nat)) :
    ServerState.process_socket (fun _ => none) (wrap_state k)
      ((wrap_pkt k, 0) :: rest) 0 = (wrap_state (k + 1), rest, some ([], 1)) := by
  have hmod1 : (k % 65536 + 1) % 65536 = (k + 1) % 65536 :=
    Nat.mod_add_mod k 65536 1
  have hne : ¬ (k % 65536 = (k + 1) % 65536) := by omega
  have hq : ¬ ((5 : ℚ) / 100 ≤ 0) := by norm_num
  simp [ServerState.process_socket.eq_def, wrap_state, wrap_pkt, init_server,
    ServerState.check_timeout, ServerState.process_reliable,
    ServerState.record_reliable_metrics, ServerState.init_first_packet,
    ServerState.classify_reliable, ServerState.has_been_delivered,
    ServerState.is_within_receive_window, ServerState.send_ack,
    ServerState.drain_in_order, ServerState.drain_loop, drain_go, lookupKey,
    hasKey, eraseKey, ServerState.start_waiting, calculate_latency,
    List.range_succ, hmod1, hne, hq, TIMEOUT, MAX_SEQ_NUM, SR_WINDOW_SIZE,
    HALF_SEQ_SPACE]

set_option maxHeartbeats 4000000 in
theorem wrap_first_step (rest : List (GameNetPacket × Nat)) :
    ServerState.process_socket (fun _ => none) (init_server TIMEOUT)
      ((wrap_pkt 0, 0) :: rest) 0 = (wrap_state 1, rest, some ([], 1)) := by
  have hq : ¬ ((5 : ℚ) / 100 ≤ 0) := by norm_num
  simp [ServerState.process_socket.eq_def, wrap_state, wrap_pkt, init_server,
    ServerState.check_timeout, ServerState.process_reliable,
    ServerState.record_reliable_metrics, ServerState.init_first_packet,
    ServerState.classify_reliable, ServerState.has_been_delivered,
    ServerState.is_within_receive_window, ServerState.send_ack,
    ServerState.drain_in_order, ServerState.drain_loop, drain_go, lookupKey,
    hasKey, eraseKey, ServerState.start_waiting, calculate_latency,
    List.range_succ, hq, TIMEOUT, MAX_SEQ_NUM, SR_WINDOW_SIZE, HALF_SEQ_SPACE]

theorem wrap_run (n : Nat) : ∀ (k : Nat),
    server_run (fun _ => none) (wrap_state k)
      ((List.range n).map (fun i => (wrap_pkt (k + i), 0))) (List.replicate n 0) =
      (wrap_state (k + n), []) := by
  induction n with
  | zero => intro k; simp [server_run]
  | succ n ih =>
    intro k
    rw [List.replicate_succ, List.range_succ_eq_map, List.map_cons, List.map_map]
    have hfun : ((fun i => (wrap_pkt (k + i), (0 : Nat))) ∘ Nat.succ) =
        fun i => (wrap_pkt (k + 1 + i), (0 : Nat)) := by
      funext i
      simp only [Function.comp_apply]
      congr 2
      omega
    rw [hfun, Nat.add_zero]
    rw [server_run, List.foldl_cons]
    dsimp only
    rw [wrap_step]
    rw [show k + (n + 1) = (k + 1) + n from by omega]
    exact ih (k + 1)

theorem server_run_cons (jp : List Nat → Option (Nat × Nat)) (st : ServerState)
    (inbox : List (GameNetPacket × Nat)) (now : ℚ) (ticks : List ℚ) :
    server_run jp st inbox (now :: ticks) =
      server_run jp (ServerState.process_socket jp st inbox now).1
        (ServerState.process_socket jp st inbox now).2.1 ticks := by
  rw [server_run, server_run, List.foldl_cons]

/-- Processing one reliable packet per loop tick for sequence numbers
`0, 1, …, 65535, 0` — a full wrap of the sequence space followed by a
fresh packet that reuses sequence number 0. -/
theorem wrap_full_run :
    server_run (fun _ => none) (init_server TIMEOUT)
      ((List.range 65537).map (fun i => (wrap_pkt i, 0))) (List.replicate 65537 0) =
      (wrap_state 65537, []) := by
  rw [show (65537 : Nat) = 65536 + 1 from rfl, List.replicate_succ,
    List.range_succ_eq_map, List.map_cons, List.map_map]
  rw [server_run_cons, wrap_first_step]
  dsimp only
  have hfun : ((fun i => (wrap_pkt i, (0 : Nat))) ∘ Nat.succ) =
      fun i => (wrap_pkt (1 + i), (0 : Nat)) := by
    funext i
    simp only [Function.comp_apply]
    congr 2
    omega
  rw [hfun]
  have h := wrap_run 65536 1
  rw [show (1 : Nat) + 65536 = 65536 + 1 from by norm_num] at h
  exact h

theorem map_mod_range_id (n : Nat) :
    (List.range n).map (fun i => i % n) = List.range n := by
  have h : (List.range n).map (fun i => i % n) = (List.range n).map (fun i => i) :=
    List.map_congr_left fun i hi => Nat.mod_eq_of_lt (List.mem_range.mp hi)
  rw [h]
  exact List.map_id (List.range n)

theorem count_mod_range (n : Nat) (hn : 0 < n) :
    ((List.range (n + 1)).map (fun i => i % n)).count 0 = 2 := by
  rw [List.range_succ, List.map_append, List.count_append, map_mod_range_id]
  rw [List.count_eq_one_of_mem (List.nodup_range n) (List.mem_range.mpr hn)]
  simp [Nat.mod_self]

theorem wrap_state_dlog (k : Nat) :
    (wrap_state k).delivery_log = (List.range k).map (fun i => i % MAX_SEQ_NUM) :=
  rfl

theorem wrap_dlog_count :
    ((wrap_state 65537).delivery_log).count 0 = 2 := by
  rw [wrap_state_dlog]
  have h := count_mod_range 65536 (by norm_num)
  simpa [MAX_SEQ_NUM] using h

/-- Counterexample to C2 as stated: after the server processes the reliable
sequence numbers 0, 1, …, 65535, 0 (one full wrap of the 16-bit sequence
space followed by a fresh packet reusing sequence number 0), sequence
number 0 has been appended to the output buffer twice, so "each sequence
number is appended to the output buffer at most once" fails across runs
long enough for the sequence space to wrap. -/
theorem wrap_duplicate_delivery_counterexample :
    ¬ ((server_run (fun _ => none) (init_server TIMEOUT)
        ((List.range 65537).map (fun i => (wrap_pkt i, 0)))
        (List.replicate 65537 0)).1.delivery_log.count 0 ≤ 1) := by
  rw [wrap_full_run]
  intro h
  rw [wrap_dlog_count] at h
  norm_num at h

/-- Counterexample to C3 as stated: over the same full-wrap run the
delivery log is not duplicate-free — the receiver appends sequence
number 0 twice — so "the receiver never appends the same sequence twice"
only holds while fewer than 2^16 cursor advances have occurred. -/
theorem wrap_repeat_delivery_counterexample :
    ¬ (server_run (fun _ => none) (init_server TIMEOUT)
        ((List.range 65537).map (fun i => (wrap_pkt i, 0)))
        (List.replicate 65537 0)).1.delivery_log.Nodup := by
  rw [wrap_full_run]
  intro hnd
  have h := (List.nodup_iff_count_le_one.mp hnd) 0
  rw [wrap_dlog_count] at h
  norm_num at h
